import Mathlib

/-!
# Batalha Naval: board, ability masks and overlay

A shallow embedding of `batalhaNaval.c` and a verification of its mask builders,
of the mask applicator `applyMaskAt` and of the composition done by
`printBoardWithOverlay`.

Conventions of the embedding

* A C array `int g[R][C]` is a function from a row index and a column index to the
  `int` stored there (`Grid`).  An assignment `g[i][j] = v` is `setCell g i j v`.
  A function that mutates an array argument takes the old contents and returns the
  new contents.
* A counted loop `for (int k = lo; k < hi; k++) body` whose body does not assign `k`
  is `forLoop lo hi body`, which runs the body for `k = lo, lo + 1, ..., hi - 1` in
  this order, threading the mutated state.
* `int` is a 32-bit two's-complement integer.  The only arithmetic of the program
  whose operands are not small constants or loop counters is
  `originRow + (r - mid)` and `originCol + (c - mid)` in `applyMaskAt`; it is
  embedded with the wrap-around `addInt`.  All other sums and differences stay
  between `-3` and `13`.
* Standard output is the sequence of `printf` calls made (`PrintfCall`), rendered to
  text by `stdoutText`.
-/

namespace BatalhaNaval

/-! ## Constants -/

/-- Board side length, `#define N 10`. -/
def N : Int := 10

/-- Mask side length, `#define MASK 7`. -/
def MASK : Int := 7

/-- Value of a water cell, `#define WATER 0`. -/
def WATER : Int := 0

/-- Value of a ship cell, `#define SHIP 3`. -/
def SHIP : Int := 3

/-- Value displayed for a cell hit by an ability, `#define AOE 5`. -/
def AOE : Int := 5

/-! ## Machine integers, arrays, loops, output -/

/-- Membership in the range of a 32-bit `int`. -/
def isInt32 (x : Int) : Prop := -2147483648 ≤ x ∧ x ≤ 2147483647

instance (x : Int) : Decidable (isInt32 x) := by
  unfold isInt32; infer_instance

/-- Reduction of an integer to the 32-bit two's-complement range. -/
def wrapInt32 (x : Int) : Int := (x + 2147483648) % 4294967296 - 2147483648

/-- Addition of two `int` values, wrapping around on overflow. -/
def addInt (a b : Int) : Int := wrapInt32 (a + b)

/-- Contents of a two-dimensional `int` array, by row index and column index. -/
abbrev Grid := Int → Int → Int

/-- The assignment `g[i][j] = v`. -/
def setCell (g : Grid) (i j v : Int) : Grid :=
  fun a b => if a = i ∧ b = j then v else g a b

/-- The loop `for (int k = lo; k < hi; k++) body`, threading the state `s`. -/
def forLoop {σ : Type} (lo hi : Int) (body : Int → σ → σ) (s : σ) : σ :=
  (List.range (hi - lo).toNat).foldl (fun acc (k : Nat) => body (lo + (k : Int)) acc) s

/-- A call of `printf` made by the program. -/
inductive PrintfCall where
  /-- The call `printf("%d%s", v, s)`. -/
  | intStr (v : Int) (s : String)
  /-- The call `printf("\n")`. -/
  | newline
  deriving DecidableEq

/-- Text written by one `printf` call. -/
def PrintfCall.text : PrintfCall → String
  | .intStr v s => toString v ++ s
  | .newline => "\n"

/-- Text written to standard output by a sequence of `printf` calls. -/
def stdoutText (calls : List PrintfCall) : String :=
  String.join (calls.map PrintfCall.text)

/-! ## The program -/

/-- The C function `void clearIntGrid(int rows, int cols, int grid[rows][cols])`. -/
def clearIntGrid (rows cols : Int) (grid : Grid) : Grid :=
  forLoop 0 rows (fun i grid =>
    forLoop 0 cols (fun j grid => setCell grid i j 0) grid) grid

/-- The C function `void printBoardWithOverlay(int board[N][N], int overlay[N][N])`: the `printf`
calls it makes, in order. -/
def printBoardWithOverlay (board overlay : Grid) : List PrintfCall :=
  forLoop 0 N (fun i out =>
    let out := forLoop 0 N (fun j out =>
      let v := if overlay i j = 1 then AOE else board i j
      out ++ [PrintfCall.intStr v (if j = N - 1 then "" else " ")]) out
    out ++ [PrintfCall.newline]) []

/-- The C function `void buildConeMask(int mask[MASK][MASK])`. -/
def buildConeMask (mask : Grid) : Grid :=
  let mask := clearIntGrid MASK MASK mask
  let apexCol := MASK / 2
  forLoop 0 MASK (fun r mask =>
    let half := r
    let cStart := apexCol - half
    let cEnd := apexCol + half
    let cStart := if cStart < 0 then 0 else cStart
    let cEnd := if cEnd ≥ MASK then MASK - 1 else cEnd
    -- `for (int c = cStart; c <= cEnd; c++)`
    forLoop cStart (cEnd + 1) (fun c mask => setCell mask r c 1) mask) mask

/-- The C function `void buildCrossMask(int mask[MASK][MASK])`. -/
def buildCrossMask (mask : Grid) : Grid :=
  let mask := clearIntGrid MASK MASK mask
  let mid := MASK / 2
  forLoop 0 MASK (fun r mask =>
    forLoop 0 MASK (fun c mask =>
      if r = mid ∨ c = mid then setCell mask r c 1 else mask) mask) mask

/-- The C function `void buildOctaMask(int mask[MASK][MASK])`. -/
def buildOctaMask (mask : Grid) : Grid :=
  let mask := clearIntGrid MASK MASK mask
  let mid := MASK / 2
  let radius := mid
  forLoop 0 MASK (fun r mask =>
    forLoop 0 MASK (fun c mask =>
      let dr := if r > mid then r - mid else mid - r
      let dc := if c > mid then c - mid else mid - c
      if dr + dc ≤ radius then setCell mask r c 1 else mask) mask) mask

/-- The C function `void applyMaskAt(int overlay[N][N], int originRow, int originCol,
int mask[MASK][MASK])`. -/
def applyMaskAt (overlay : Grid) (originRow originCol : Int) (mask : Grid) : Grid :=
  let mid := MASK / 2
  forLoop 0 MASK (fun r overlay =>
    forLoop 0 MASK (fun c overlay =>
      if mask r c = 1 then
        let br := addInt originRow (r - mid)
        let bc := addInt originCol (c - mid)
        if br ≥ 0 ∧ br < N ∧ bc ≥ 0 ∧ bc < N then setCell overlay br bc 1
        else overlay
      else overlay) overlay) overlay

/-- The C function `void placeExampleShips(int board[N][N])`. -/
def placeExampleShips (board : Grid) : Grid :=
  -- `for (int c = 1; c <= 3; c++)`
  let board := forLoop 1 (3 + 1) (fun c board => setCell board 2 c SHIP) board
  -- `for (int r = 5; r < N && r < 9; r++)`
  let board := forLoop 5 (min N 9) (fun r board => setCell board r 7 SHIP) board
  setCell board 8 2 SHIP

/-- The C function `int main(void)`: the `printf` calls made and the exit status.  The five local
arrays are not initialised by their declarations, so their initial contents are
parameters. -/
def main (board overlay cone cross octa : Grid) : List PrintfCall × Int :=
  let board := clearIntGrid N N board
  let board := placeExampleShips board
  let overlay := clearIntGrid N N overlay
  let cone := buildConeMask cone
  let cross := buildCrossMask cross
  let octa := buildOctaMask octa
  let coneOriginRow := 1
  let coneOriginCol := 3
  let crossOriginRow := 5
  let crossOriginCol := 5
  let octaOriginRow := 7
  let octaOriginCol := 2
  let overlay := applyMaskAt overlay coneOriginRow coneOriginCol cone
  let overlay := applyMaskAt overlay crossOriginRow crossOriginCol cross
  let overlay := applyMaskAt overlay octaOriginRow octaOriginCol octa
  (printBoardWithOverlay board overlay, 0)

/-! ## Specification vocabulary -/

/-- The state transformer `step` stores `v` in exactly the cells selected by `Q` and
leaves every other cell as it was. -/
def Stores (v : Int) (Q : Int → Int → Prop) (step : Grid → Grid) : Prop :=
  ∀ g i j, (Q i j → step g i j = v) ∧ (¬ Q i j → step g i j = g i j)

/-- Board cell `(i, j)` lies under an included cell of `mask` when the centre `(3, 3)`
of the mask is put on the origin: the mask cell `(i - originRow + 3, j - originCol + 3)`
exists and holds `1`. -/
def Hit (originRow originCol : Int) (mask : Grid) (i j : Int) : Prop :=
  (0 ≤ i ∧ i < 10 ∧ 0 ≤ j ∧ j < 10) ∧
  (0 ≤ i - originRow + 3 ∧ i - originRow + 3 ≤ 6) ∧
  (0 ≤ j - originCol + 3 ∧ j - originCol + 3 ≤ 6) ∧
  mask (i - originRow + 3) (j - originCol + 3) = 1

instance (originRow originCol : Int) (mask : Grid) (i j : Int) :
    Decidable (Hit originRow originCol mask i j) := by
  unfold Hit; infer_instance

/-- The value printed for the cell in row `i`, column `j` by a sequence of `printf`
calls laid out as `printBoardWithOverlay` makes them: every row makes one call per
cell and then one call for the end of the line, so the call for cell `(i, j)` is call
number `11 * i + j`. -/
def displayedValue (calls : List PrintfCall) (i j : Nat) : Option Int :=
  match calls.get? (11 * i + j) with
  | some (PrintfCall.intStr v _) => some v
  | _ => none

/-- One stamping request: the origin and the mask passed to `applyMaskAt`. -/
structure Stamp where
  /-- Row of the origin. -/
  originRow : Int
  /-- Column of the origin. -/
  originCol : Int
  /-- The mask to apply. -/
  mask : Grid

/-- A sequence of `applyMaskAt` calls made one after the other on the same overlay. -/
def stampAll (overlay : Grid) (stamps : List Stamp) : Grid :=
  stamps.foldl (fun ov s => applyMaskAt ov s.originRow s.originCol s.mask) overlay

/-- The function `applyMaskAt` with a log of its writes: the same loops, the same tests
and the same assignment, and every assignment `overlay[br][bc] = 1` also appends the
index pair `(br, bc)` to the log. -/
def applyMaskAtLogged (overlay : Grid) (originRow originCol : Int) (mask : Grid) :
    Grid × List (Int × Int) :=
  let mid := MASK / 2
  forLoop 0 MASK (fun r st =>
    forLoop 0 MASK (fun c st =>
      if mask r c = 1 then
        let br := addInt originRow (r - mid)
        let bc := addInt originCol (c - mid)
        if br ≥ 0 ∧ br < N ∧ bc ≥ 0 ∧ bc < N then (setCell st.1 br bc 1, st.2 ++ [(br, bc)])
        else st
      else st) st) (overlay, [])

/-- Number of cells equal to `1` in the first `rows` rows and `cols` columns of a grid. -/
def countOnes (rows cols : Nat) (g : Grid) : Nat :=
  ((List.range rows).map (fun (i : Nat) =>
    (List.range cols).countP (fun (j : Nat) => decide (g (i : Int) (j : Int) = 1)))).sum

/-- The inclusion set of the cone as a grid: `1` on the cells `(r, c)` with
`3 - r ≤ c ≤ 3 + r` and `0` on the others. -/
def coneShape : Grid := fun r c => if 3 - r ≤ c ∧ c ≤ 3 + r then 1 else 0

/-- The inclusion set of the cross as a grid: `1` on the cells `(r, c)` with `r = 3` or
`c = 3` and `0` on the others. -/
def crossShape : Grid := fun r c => if r = 3 ∨ c = 3 then 1 else 0

/-- The inclusion set of the diamond as a grid: `1` on the cells `(r, c)` with
`|r - 3| + |c - 3| ≤ 3` and `0` on the others. -/
def octaShape : Grid := fun r c => if |r - 3| + |c - 3| ≤ 3 then 1 else 0

/-- Number of cells equal to `1` among the first `cols` cells of row `i` of a grid. -/
def rowOnes (cols : Nat) (g : Grid) (i : Nat) : Nat :=
  (List.range cols).countP (fun (j : Nat) => decide (g (i : Int) (j : Int) = 1))

/-- A decimal numeral as the conversion `%d` writes it: one or more digits, with a minus
sign in front for a negative value. -/
def isDecimalChars : List Char → Bool
  | '-' :: ds => !ds.isEmpty && ds.all Char.isDigit
  | ds => !ds.isEmpty && ds.all Char.isDigit

/-- The string is a decimal numeral. -/
def isDecimal (s : String) : Bool := isDecimalChars s.data

/-- The board of the example run in closed form: `3` on the eight ship cells `(2, 1)`,
`(2, 2)`, `(2, 3)`, `(5, 7)`, `(6, 7)`, `(7, 7)`, `(8, 7)`, `(8, 2)` and `0` elsewhere. -/
def exampleBoard : Grid := fun i j =>
  if (i = 2 ∧ 1 ≤ j ∧ j ≤ 3) ∨ (5 ≤ i ∧ i ≤ 8 ∧ j = 7) ∨ (i = 8 ∧ j = 2) then 3 else 0

/-- The overlay of the example run in closed form: `1` on the cells reached by the cone
at `(1, 3)`, by the cross at `(5, 5)` or by the diamond at `(7, 2)`, and `0` elsewhere. -/
def exampleOverlay : Grid := fun i j =>
  if Hit 1 3 coneShape i j ∨ Hit 5 5 crossShape i j ∨ Hit 7 2 octaShape i j then 1 else 0

/-- The function `buildCrossMask` with the macro `MASK` as the parameter `M`: the same
statements, for a mask `int mask[M][M]`. -/
def buildCrossMaskOf (M : Int) (mask : Grid) : Grid :=
  let mask := clearIntGrid M M mask
  let mid := M / 2
  forLoop 0 M (fun r mask =>
    forLoop 0 M (fun c mask =>
      if r = mid ∨ c = mid then setCell mask r c 1 else mask) mask) mask

/-- The function `buildOctaMask` with the macro `MASK` as the parameter `M`: the same
statements, for a mask `int mask[M][M]`. -/
def buildOctaMaskOf (M : Int) (mask : Grid) : Grid :=
  let mask := clearIntGrid M M mask
  let mid := M / 2
  let radius := mid
  forLoop 0 M (fun r mask =>
    forLoop 0 M (fun c mask =>
      let dr := if r > mid then r - mid else mid - r
      let dc := if c > mid then c - mid else mid - c
      if dr + dc ≤ radius then setCell mask r c 1 else mask) mask) mask

/-! ## Loops and stores -/

theorem forLoop_eq_foldl {σ : Type} (lo hi : Int) (body : Int → σ → σ) (s : σ) :
    forLoop lo hi body s
      = (List.range (hi - lo).toNat).foldl (fun acc (k : Nat) => body (lo + (k : Int)) acc) s :=
  rfl

/-- Invariant rule for `forLoop`. -/
theorem forLoop_invariant {σ : Type} (P : σ → Prop) (lo hi : Int) (body : Int → σ → σ)
    (s : σ) (h0 : P s)
    (hstep : ∀ k, lo ≤ k → k < hi → ∀ t, P t → P (body k t)) :
    P (forLoop lo hi body s) := by
  rw [forLoop_eq_foldl]
  have key : ∀ n : Nat, n ≤ (hi - lo).toNat →
      P ((List.range n).foldl (fun acc (k : Nat) => body (lo + (k : Int)) acc) s) := by
    intro n
    induction n with
    | zero => intro _; simpa using h0
    | succ m ih =>
      intro hm
      rw [List.range_succ, List.foldl_append]
      simp only [List.foldl_cons, List.foldl_nil]
      apply hstep
      · omega
      · omega
      · exact ih (by omega)
  exact key _ (le_refl _)

theorem stores_congr {v : Int} {Q Q' : Int → Int → Prop} {step : Grid → Grid}
    (h : Stores v Q step) (hQ : ∀ i j, Q' i j ↔ Q i j) : Stores v Q' step := by
  intro g i j
  rw [hQ i j]
  exact h g i j

theorem stores_skip (v : Int) : Stores v (fun _ _ => False) (fun g => g) := by
  intro g i j
  simp

theorem stores_setCell (v a b : Int) :
    Stores v (fun i j => i = a ∧ j = b) (fun g => setCell g a b v) := by
  intro g i j
  constructor
  · intro h
    simp [setCell, h]
  · intro h
    simp [setCell, h]

theorem stores_guard {v : Int} {Q : Int → Int → Prop} {step : Grid → Grid}
    (P : Prop) [Decidable P] (h : Stores v Q step) :
    Stores v (fun i j => P ∧ Q i j) (fun g => if P then step g else g) := by
  intro g i j
  by_cases hP : P
  · simpa [hP] using h g i j
  · simp [hP]

theorem stores_seq {v : Int} {Q₁ Q₂ : Int → Int → Prop} {s₁ s₂ : Grid → Grid}
    (h₁ : Stores v Q₁ s₁) (h₂ : Stores v Q₂ s₂) :
    Stores v (fun i j => Q₁ i j ∨ Q₂ i j) (fun g => s₂ (s₁ g)) := by
  intro g i j
  by_cases q2 : Q₂ i j
  · constructor
    · intro _
      exact (h₂ (s₁ g) i j).1 q2
    · intro hn
      exact absurd (Or.inr q2) hn
  · constructor
    · intro hq
      show s₂ (s₁ g) i j = v
      rw [(h₂ (s₁ g) i j).2 q2]
      rcases hq with hq | hq
      · exact (h₁ g i j).1 hq
      · exact absurd hq q2
    · intro hn
      show s₂ (s₁ g) i j = g i j
      rw [(h₂ (s₁ g) i j).2 q2]
      exact (h₁ g i j).2 (fun hq => hn (Or.inl hq))

/-- A loop whose every iteration stores `v` in the cells `Q k` stores `v` in the
union of these sets. -/
theorem stores_forLoop {v : Int} (lo hi : Int) (Q : Int → Int → Int → Prop)
    (body : Int → Grid → Grid)
    (h : ∀ k, lo ≤ k → k < hi → Stores v (Q k) (body k)) :
    Stores v (fun i j => ∃ k, lo ≤ k ∧ k < hi ∧ Q k i j) (forLoop lo hi body) := by
  have key : ∀ n : Nat, n ≤ (hi - lo).toNat →
      Stores v (fun i j => ∃ k, lo ≤ k ∧ k < lo + (n : Int) ∧ Q k i j)
        (fun g => (List.range n).foldl (fun acc (k : Nat) => body (lo + (k : Int)) acc) g) := by
    intro n
    induction n with
    | zero =>
      intro _
      refine stores_congr (stores_skip v) ?_
      intro i j
      constructor
      · rintro ⟨k, h1, h2, _⟩
        simp at h2
        omega
      · intro hf
        exact hf.elim
    | succ m ih =>
      intro hm
      have hprev := ih (by omega)
      have hlast := h (lo + (m : Int)) (by omega) (by omega)
      have hboth : Stores v
          (fun i j => (∃ k, lo ≤ k ∧ k < lo + (m : Int) ∧ Q k i j) ∨ Q (lo + (m : Int)) i j)
          (fun g => (List.range (m + 1)).foldl
            (fun acc (k : Nat) => body (lo + (k : Int)) acc) g) := by
        intro g i j
        have hg := stores_seq hprev hlast g i j
        simp only [List.range_succ, List.foldl_append, List.foldl_cons, List.foldl_nil]
        exact hg
      refine stores_congr hboth ?_
      · intro i j
        constructor
        · rintro ⟨k, h1, h2, h3⟩
          by_cases hk : k = lo + (m : Int)
          · right
            rw [← hk]
            exact h3
          · left
            refine ⟨k, h1, ?_, h3⟩
            push_cast at h2
            omega
        · rintro (⟨k, h1, h2, h3⟩ | h3)
          · refine ⟨k, h1, ?_, h3⟩
            push_cast
            omega
          · refine ⟨lo + (m : Int), by omega, ?_, h3⟩
            push_cast
            omega
  by_cases hle : lo ≤ hi
  · refine stores_congr (key _ (le_refl _)) ?_
    intro i j
    have e : lo + (((hi - lo).toNat : Nat) : Int) = hi := by
      rw [Int.toNat_of_nonneg (by omega)]
      omega
    rw [e]
  · have e0 : (hi - lo).toNat = 0 := by
      apply Int.toNat_eq_zero.mpr
      omega
    have hk := key 0 (Nat.zero_le _)
    rw [← e0] at hk
    refine stores_congr hk ?_
    intro i j
    rw [e0]
    constructor
    · rintro ⟨k, h1, h2, _⟩
      omega
    · rintro ⟨k, h1, h2, _⟩
      simp at h2
      omega

/-! ## The mask applicator -/

theorem mask_mid : MASK / 2 = 3 := by decide

/-- The nested loops of `applyMaskAt` store `1` in the cells reached from an included
mask cell through the bounds check. -/
theorem applyMaskAt_stores (originRow originCol : Int) (mask : Grid) :
    Stores 1
      (fun i j => ∃ r, 0 ≤ r ∧ r < MASK ∧ ∃ c, 0 ≤ c ∧ c < MASK ∧
        (mask r c = 1 ∧
          ((addInt originRow (r - MASK / 2) ≥ 0 ∧ addInt originRow (r - MASK / 2) < N ∧
            addInt originCol (c - MASK / 2) ≥ 0 ∧ addInt originCol (c - MASK / 2) < N) ∧
           (i = addInt originRow (r - MASK / 2) ∧ j = addInt originCol (c - MASK / 2)))))
      (fun overlay => applyMaskAt overlay originRow originCol mask) := by
  unfold applyMaskAt
  refine stores_forLoop 0 MASK
    (fun r i j => ∃ c, 0 ≤ c ∧ c < MASK ∧
        (mask r c = 1 ∧
          ((addInt originRow (r - MASK / 2) ≥ 0 ∧ addInt originRow (r - MASK / 2) < N ∧
            addInt originCol (c - MASK / 2) ≥ 0 ∧ addInt originCol (c - MASK / 2) < N) ∧
           (i = addInt originRow (r - MASK / 2) ∧ j = addInt originCol (c - MASK / 2))))) _ ?_
  intro r _ _
  refine stores_forLoop 0 MASK
    (fun c i j => mask r c = 1 ∧
          ((addInt originRow (r - MASK / 2) ≥ 0 ∧ addInt originRow (r - MASK / 2) < N ∧
            addInt originCol (c - MASK / 2) ≥ 0 ∧ addInt originCol (c - MASK / 2) < N) ∧
           (i = addInt originRow (r - MASK / 2) ∧ j = addInt originCol (c - MASK / 2)))) _ ?_
  intro c _ _
  exact stores_guard _ (stores_guard _ (stores_setCell 1 _ _))

/-- For an origin in the range of `int`, the cells reached by the loops of
`applyMaskAt` are the cells of `Hit`. -/
theorem reached_iff_hit (originRow originCol : Int) (mask : Grid)
    (hR : isInt32 originRow) (hC : isInt32 originCol) (i j : Int) :
    (∃ r, 0 ≤ r ∧ r < MASK ∧ ∃ c, 0 ≤ c ∧ c < MASK ∧
        (mask r c = 1 ∧
          ((addInt originRow (r - MASK / 2) ≥ 0 ∧ addInt originRow (r - MASK / 2) < N ∧
            addInt originCol (c - MASK / 2) ≥ 0 ∧ addInt originCol (c - MASK / 2) < N) ∧
           (i = addInt originRow (r - MASK / 2) ∧ j = addInt originCol (c - MASK / 2)))))
      ↔ Hit originRow originCol mask i j := by
  unfold isInt32 at hR hC
  rw [mask_mid]
  unfold Hit addInt wrapInt32 MASK N
  constructor
  · rintro ⟨r, hr0, hr1, c, hc0, hc1, hm, ⟨hb1, hb2, hb3, hb4⟩, hi, hj⟩
    have er : i - originRow + 3 = r := by omega
    have ec : j - originCol + 3 = c := by omega
    rw [er, ec]
    refine ⟨⟨?_, ?_, ?_, ?_⟩, ⟨?_, ?_⟩, ⟨?_, ?_⟩, hm⟩ <;> omega
  · rintro ⟨⟨hi0, hi1, hj0, hj1⟩, ⟨hr0, hr1⟩, ⟨hc0, hc1⟩, hm⟩
    refine ⟨i - originRow + 3, hr0, by omega, j - originCol + 3, hc0, by omega, hm, ?_, ?_⟩
    · refine ⟨?_, ?_, ?_, ?_⟩ <;> omega
    · constructor <;> omega

theorem applyMaskAt_stores_hit (originRow originCol : Int) (mask : Grid)
    (hR : isInt32 originRow) (hC : isInt32 originCol) :
    Stores 1 (Hit originRow originCol mask)
      (fun overlay => applyMaskAt overlay originRow originCol mask) :=
  stores_congr (applyMaskAt_stores originRow originCol mask)
    (fun i j => (reached_iff_hit originRow originCol mask hR hC i j).symm)

/-- Value of every cell after `applyMaskAt`. -/
theorem applyMaskAt_apply (overlay : Grid) (originRow originCol : Int) (mask : Grid)
    (hR : isInt32 originRow) (hC : isInt32 originCol) (i j : Int) :
    applyMaskAt overlay originRow originCol mask i j
      = if Hit originRow originCol mask i j then 1 else overlay i j := by
  have h := applyMaskAt_stores_hit originRow originCol mask hR hC overlay i j
  by_cases hh : Hit originRow originCol mask i j
  · rw [if_pos hh]
    exact h.1 hh
  · rw [if_neg hh]
    exact h.2 hh

/-- Value of every cell after a sequence of `applyMaskAt` calls. -/
theorem stampAll_apply (stamps : List Stamp)
    (hs : ∀ s ∈ stamps, isInt32 s.originRow ∧ isInt32 s.originCol)
    (overlay : Grid) (i j : Int) :
    (stampAll overlay stamps i j = 1 ↔
      overlay i j = 1 ∨ ∃ s ∈ stamps, Hit s.originRow s.originCol s.mask i j) := by
  induction stamps generalizing overlay with
  | nil => simp [stampAll]
  | cons s t ih =>
    have hs' : ∀ u ∈ t, isInt32 u.originRow ∧ isInt32 u.originCol :=
      fun u hu => hs u (List.mem_cons_of_mem s hu)
    have h1 := hs s (List.mem_cons_self s t)
    have e : stampAll overlay (s :: t)
        = stampAll (applyMaskAt overlay s.originRow s.originCol s.mask) t := rfl
    rw [e, ih hs', applyMaskAt_apply overlay s.originRow s.originCol s.mask h1.1 h1.2 i j]
    by_cases hh : Hit s.originRow s.originCol s.mask i j
    · simp [hh]
    · simp [hh]

/-- The overlay component of a loop over a pair of states, when the body acts on the
first component as `body₁` does. -/
theorem forLoop_fst {α β : Type} (lo hi : Int) (body₂ : Int → α × β → α × β)
    (body₁ : Int → α → α) (h : ∀ k st, (body₂ k st).1 = body₁ k st.1) (st : α × β) :
    (forLoop lo hi body₂ st).1 = forLoop lo hi body₁ st.1 := by
  rw [forLoop_eq_foldl, forLoop_eq_foldl]
  generalize List.range (hi - lo).toNat = l
  induction l generalizing st with
  | nil => rfl
  | cons k t ih =>
    simp only [List.foldl_cons]
    rw [ih (body₂ (lo + (k : Int)) st), h]

/-- The logged applicator computes the overlay of `applyMaskAt`. -/
theorem applyMaskAtLogged_fst (overlay : Grid) (originRow originCol : Int) (mask : Grid) :
    (applyMaskAtLogged overlay originRow originCol mask).1
      = applyMaskAt overlay originRow originCol mask := by
  unfold applyMaskAtLogged applyMaskAt
  refine forLoop_fst 0 MASK _ _ ?_ (overlay, [])
  intro r st
  refine forLoop_fst 0 MASK _ _ ?_ st
  intro c st
  by_cases hm : mask r c = 1
  · by_cases hb : addInt originRow (r - MASK / 2) ≥ 0 ∧ addInt originRow (r - MASK / 2) < N ∧
        addInt originCol (c - MASK / 2) ≥ 0 ∧ addInt originCol (c - MASK / 2) < N
    · simp only [hm, if_true, hb, and_self]
    · simp only [hm, if_true, hb, if_false]
  · simp only [hm, if_false]

/-- Every entry of the log of `applyMaskAtLogged` satisfies a property that holds of
all index pairs passing the bounds check. -/
theorem applyMaskAtLogged_log (P : Int × Int → Prop) (overlay : Grid)
    (originRow originCol : Int) (mask : Grid)
    (hP : ∀ r c, 0 ≤ r → r < MASK → 0 ≤ c → c < MASK → mask r c = 1 →
      addInt originRow (r - MASK / 2) ≥ 0 ∧ addInt originRow (r - MASK / 2) < N ∧
        addInt originCol (c - MASK / 2) ≥ 0 ∧ addInt originCol (c - MASK / 2) < N →
      P (addInt originRow (r - MASK / 2), addInt originCol (c - MASK / 2))) :
    ∀ w ∈ (applyMaskAtLogged overlay originRow originCol mask).2, P w := by
  unfold applyMaskAtLogged
  refine forLoop_invariant (fun st : Grid × List (Int × Int) => ∀ w ∈ st.2, P w)
    0 MASK _ (overlay, []) ?_ ?_
  · intro w hw
    simp at hw
  · intro r hr0 hr1 st hst
    refine forLoop_invariant (fun st : Grid × List (Int × Int) => ∀ w ∈ st.2, P w)
      0 MASK _ st hst ?_
    intro c hc0 hc1 st hst
    by_cases hm : mask r c = 1
    · by_cases hb : addInt originRow (r - MASK / 2) ≥ 0 ∧ addInt originRow (r - MASK / 2) < N ∧
          addInt originCol (c - MASK / 2) ≥ 0 ∧ addInt originCol (c - MASK / 2) < N
      · simp only [hm, if_true, hb, and_self]
        intro w hw
        rcases List.mem_append.mp hw with hw | hw
        · exact hst w hw
        · rw [List.mem_singleton.mp hw]
          exact hP r c hr0 hr1 hc0 hc1 hm hb
      · simp only [hm, if_true, hb, if_false]
        exact hst
    · simp only [hm, if_false]
      exact hst

/-- The log component of a loop over a pair of states, when every iteration appends to
the log a list that depends on the counter only. -/
theorem forLoop_snd {α β : Type} (lo hi : Int) (body : Int → α × List β → α × List β)
    (f : Int → List β) (h : ∀ k st, (body k st).2 = st.2 ++ f k) (st : α × List β) :
    (forLoop lo hi body st).2
      = st.2 ++ (List.range (hi - lo).toNat).flatMap (fun (k : Nat) => f (lo + (k : Int))) := by
  rw [forLoop_eq_foldl]
  generalize (hi - lo).toNat = n
  induction n with
  | zero => simp
  | succ m ih =>
    rw [List.range_succ, List.foldl_append]
    simp only [List.foldl_cons, List.foldl_nil]
    rw [h, ih]
    simp [List.flatMap_append]

/-- The log of `applyMaskAtLogged`: one entry for every included mask cell that passes
the bounds check, in the order of the loops. -/
theorem applyMaskAtLogged_snd (overlay : Grid) (originRow originCol : Int) (mask : Grid) :
    (applyMaskAtLogged overlay originRow originCol mask).2
      = (List.range 7).flatMap (fun (r : Nat) => (List.range 7).flatMap (fun (c : Nat) =>
          if mask (r : Int) (c : Int) = 1 then
            if addInt originRow ((r : Int) - 3) ≥ 0 ∧ addInt originRow ((r : Int) - 3) < 10 ∧
                addInt originCol ((c : Int) - 3) ≥ 0 ∧ addInt originCol ((c : Int) - 3) < 10
            then [(addInt originRow ((r : Int) - 3), addInt originCol ((c : Int) - 3))]
            else []
          else [])) := by
  have inner : ∀ (r : Int) (st : Grid × List (Int × Int)),
      (forLoop 0 MASK (fun c (st : Grid × List (Int × Int)) =>
        if mask r c = 1 then
          if addInt originRow (r - MASK / 2) ≥ 0 ∧ addInt originRow (r - MASK / 2) < N ∧
              addInt originCol (c - MASK / 2) ≥ 0 ∧ addInt originCol (c - MASK / 2) < N
          then (setCell st.1 (addInt originRow (r - MASK / 2))
            (addInt originCol (c - MASK / 2)) 1,
            st.2 ++ [(addInt originRow (r - MASK / 2), addInt originCol (c - MASK / 2))])
          else st
        else st) st).2
      = st.2 ++ (List.range 7).flatMap (fun (c : Nat) =>
          if mask r (c : Int) = 1 then
            if addInt originRow (r - 3) ≥ 0 ∧ addInt originRow (r - 3) < 10 ∧
                addInt originCol ((c : Int) - 3) ≥ 0 ∧ addInt originCol ((c : Int) - 3) < 10
            then [(addInt originRow (r - 3), addInt originCol ((c : Int) - 3))]
            else []
          else []) := by
    intro r st
    rw [forLoop_snd 0 MASK _ (fun c =>
      if mask r c = 1 then
        if addInt originRow (r - MASK / 2) ≥ 0 ∧ addInt originRow (r - MASK / 2) < N ∧
            addInt originCol (c - MASK / 2) ≥ 0 ∧ addInt originCol (c - MASK / 2) < N
        then [(addInt originRow (r - MASK / 2), addInt originCol (c - MASK / 2))]
        else []
      else [])]
    · simp [mask_mid, MASK, N]
    · intro c st
      by_cases hm : mask r c = 1
      · by_cases hb : addInt originRow (r - MASK / 2) ≥ 0 ∧
            addInt originRow (r - MASK / 2) < N ∧
            addInt originCol (c - MASK / 2) ≥ 0 ∧ addInt originCol (c - MASK / 2) < N
        · simp only [hm, if_true, hb, and_self]
        · simp only [hm, if_true, hb, if_false, List.append_nil]
      · simp only [hm, if_false, List.append_nil]
  unfold applyMaskAtLogged
  rw [forLoop_snd 0 MASK _ (fun r => (List.range 7).flatMap (fun (c : Nat) =>
          if mask r (c : Int) = 1 then
            if addInt originRow (r - 3) ≥ 0 ∧ addInt originRow (r - 3) < 10 ∧
                addInt originCol ((c : Int) - 3) ≥ 0 ∧ addInt originCol ((c : Int) - 3) < 10
            then [(addInt originRow (r - 3), addInt originCol ((c : Int) - 3))]
            else []
          else []))]
  · simp [MASK]
  · intro r st
    exact inner r st

/-! ## The mask builders -/

theorem clearIntGrid_stores (rows cols : Int) :
    Stores 0 (fun i j => (0 ≤ i ∧ i < rows) ∧ (0 ≤ j ∧ j < cols)) (clearIntGrid rows cols) := by
  have h : Stores 0 (fun i j => ∃ r, 0 ≤ r ∧ r < rows ∧ ∃ c, 0 ≤ c ∧ c < cols ∧ (i = r ∧ j = c))
      (clearIntGrid rows cols) :=
    stores_forLoop 0 rows (fun r i j => ∃ c, 0 ≤ c ∧ c < cols ∧ (i = r ∧ j = c)) _
      (fun r _ _ => stores_forLoop 0 cols (fun c i j => i = r ∧ j = c) _
        (fun c _ _ => stores_setCell 0 r c))
  refine stores_congr h ?_
  intro i j
  constructor
  · rintro ⟨⟨h1, h2⟩, h3, h4⟩
    exact ⟨i, h1, h2, j, h3, h4, rfl, rfl⟩
  · rintro ⟨r, h1, h2, c, h3, h4, rfl, rfl⟩
    exact ⟨⟨h1, h2⟩, h3, h4⟩

/-- Value of every cell after `clearIntGrid`. -/
theorem clearIntGrid_apply (rows cols : Int) (grid : Grid) (i j : Int) :
    clearIntGrid rows cols grid i j
      = if (0 ≤ i ∧ i < rows) ∧ (0 ≤ j ∧ j < cols) then 0 else grid i j := by
  have h := clearIntGrid_stores rows cols grid i j
  by_cases hh : (0 ≤ i ∧ i < rows) ∧ (0 ≤ j ∧ j < cols)
  · rw [if_pos hh]
    exact h.1 hh
  · rw [if_neg hh]
    exact h.2 hh

/-- Value of every cell after `buildConeMask`. -/
theorem buildConeMask_apply (mask : Grid) (r c : Int) :
    buildConeMask mask r c
      = if (0 ≤ r ∧ r < 7) ∧ (0 ≤ c ∧ c < 7) then (if 3 - r ≤ c ∧ c ≤ 3 + r then 1 else 0)
        else mask r c := by
  have hl : Stores 1
      (fun i j => ∃ k, 0 ≤ k ∧ k < MASK ∧ ∃ l,
        (if MASK / 2 - k < 0 then 0 else MASK / 2 - k) ≤ l ∧
        l < (if MASK / 2 + k ≥ MASK then MASK - 1 else MASK / 2 + k) + 1 ∧ (i = k ∧ j = l))
      (fun m => forLoop 0 MASK (fun r mask =>
        forLoop (if MASK / 2 - r < 0 then 0 else MASK / 2 - r)
          ((if MASK / 2 + r ≥ MASK then MASK - 1 else MASK / 2 + r) + 1)
          (fun c mask => setCell mask r c 1) mask) m) :=
    stores_forLoop 0 MASK (fun k i j => ∃ l,
        (if MASK / 2 - k < 0 then 0 else MASK / 2 - k) ≤ l ∧
        l < (if MASK / 2 + k ≥ MASK then MASK - 1 else MASK / 2 + k) + 1 ∧ (i = k ∧ j = l)) _
      (fun k _ _ => stores_forLoop _ _ (fun l i j => i = k ∧ j = l) _
        (fun l _ _ => stores_setCell 1 k l))
  have h := hl (clearIntGrid MASK MASK mask) r c
  have hc := clearIntGrid_apply MASK MASK mask r c
  rw [mask_mid] at h
  unfold MASK at h hc
  have e : buildConeMask mask r c
      = forLoop 0 7 (fun r mask =>
        forLoop (if (3 : Int) - r < 0 then 0 else 3 - r)
          ((if (3 : Int) + r ≥ 7 then 7 - 1 else 3 + r) + 1)
          (fun c mask => setCell mask r c 1) mask) (clearIntGrid 7 7 mask) r c := rfl
  rw [e]
  by_cases hin : (0 ≤ r ∧ r < 7) ∧ (0 ≤ c ∧ c < 7)
  · rw [if_pos hin]
    rw [if_pos hin] at hc
    by_cases hq : 3 - r ≤ c ∧ c ≤ 3 + r
    · rw [if_pos hq]
      apply h.1
      refine ⟨r, hin.1.1, hin.1.2, c, ?_, ?_, rfl, rfl⟩
      · split_ifs <;> omega
      · split_ifs <;> omega
    · rw [if_neg hq]
      refine (h.2 ?_).trans hc
      rintro ⟨k, _, _, l, h1, h2, rfl, rfl⟩
      apply hq
      split_ifs at h1 h2 <;> omega
  · rw [if_neg hin]
    rw [if_neg hin] at hc
    refine (h.2 ?_).trans hc
    rintro ⟨k, hk0, hk1, l, h1, h2, rfl, rfl⟩
    apply hin
    split_ifs at h1 h2 <;> omega

/-- Clearing a mask and then storing `1` in the cells of the mask selected by a test
`P` gives `1` on the selected cells of the mask, `0` on its other cells, and keeps
what lies outside the mask. -/
theorem clear_then_select_apply (P : Int → Int → Prop) [∀ r c, Decidable (P r c)]
    (mask : Grid) (r c : Int) :
    forLoop 0 MASK (fun r mask =>
        forLoop 0 MASK (fun c mask => if P r c then setCell mask r c 1 else mask) mask)
      (clearIntGrid MASK MASK mask) r c
      = if (0 ≤ r ∧ r < 7) ∧ (0 ≤ c ∧ c < 7) then (if P r c then 1 else 0)
        else mask r c := by
  have hl : Stores 1
      (fun i j => ∃ k, 0 ≤ k ∧ k < MASK ∧ ∃ l, 0 ≤ l ∧ l < MASK ∧ (P k l ∧ (i = k ∧ j = l)))
      (fun m => forLoop 0 MASK (fun r mask =>
        forLoop 0 MASK (fun c mask => if P r c then setCell mask r c 1 else mask) mask) m) :=
    stores_forLoop 0 MASK
      (fun k i j => ∃ l, 0 ≤ l ∧ l < MASK ∧ (P k l ∧ (i = k ∧ j = l))) _
      (fun k _ _ => stores_forLoop 0 MASK (fun l i j => P k l ∧ (i = k ∧ j = l)) _
        (fun l _ _ => stores_guard (P k l) (stores_setCell 1 k l)))
  have h := hl (clearIntGrid MASK MASK mask) r c
  have hc := clearIntGrid_apply MASK MASK mask r c
  unfold MASK at h hc
  show forLoop 0 7 (fun r mask =>
        forLoop 0 7 (fun c mask => if P r c then setCell mask r c 1 else mask) mask)
      (clearIntGrid 7 7 mask) r c = _
  by_cases hin : (0 ≤ r ∧ r < 7) ∧ (0 ≤ c ∧ c < 7)
  · rw [if_pos hin]
    rw [if_pos hin] at hc
    by_cases hq : P r c
    · rw [if_pos hq]
      exact h.1 ⟨r, hin.1.1, hin.1.2, c, hin.2.1, hin.2.2, hq, rfl, rfl⟩
    · rw [if_neg hq]
      refine (h.2 ?_).trans hc
      rintro ⟨k, _, _, l, _, _, hp, rfl, rfl⟩
      exact hq hp
  · rw [if_neg hin]
    rw [if_neg hin] at hc
    refine (h.2 ?_).trans hc
    rintro ⟨k, hk0, hk1, l, hl0, hl1, _, rfl, rfl⟩
    exact hin ⟨⟨hk0, hk1⟩, hl0, hl1⟩

/-- Value of every cell after `buildCrossMask`. -/
theorem buildCrossMask_apply (mask : Grid) (r c : Int) :
    buildCrossMask mask r c
      = if (0 ≤ r ∧ r < 7) ∧ (0 ≤ c ∧ c < 7) then (if r = 3 ∨ c = 3 then 1 else 0)
        else mask r c := by
  have h := clear_then_select_apply (fun r c => r = MASK / 2 ∨ c = MASK / 2) mask r c
  rw [mask_mid] at h
  exact h

/-- Value of every cell after `buildOctaMask`. -/
theorem buildOctaMask_apply (mask : Grid) (r c : Int) :
    buildOctaMask mask r c
      = if (0 ≤ r ∧ r < 7) ∧ (0 ≤ c ∧ c < 7) then (if |r - 3| + |c - 3| ≤ 3 then 1 else 0)
        else mask r c := by
  have h := clear_then_select_apply
    (fun r c => (if r > MASK / 2 then r - MASK / 2 else MASK / 2 - r)
      + (if c > MASK / 2 then c - MASK / 2 else MASK / 2 - c) ≤ MASK / 2) mask r c
  rw [mask_mid] at h
  have e : ((if r > 3 then r - 3 else 3 - r) + (if c > 3 then c - 3 else 3 - c) ≤ 3)
      ↔ |r - 3| + |c - 3| ≤ 3 := by
    rcases abs_cases (r - 3) with ⟨h1, _⟩ | ⟨h1, _⟩ <;>
      rcases abs_cases (c - 3) with ⟨h2, _⟩ | ⟨h2, _⟩ <;>
      rw [h1, h2] <;> split_ifs <;> omega
  simp only [e] at h
  exact h

/-! ## The printer -/

/-- A loop that appends to its state appends the pieces in the order of the counter. -/
theorem forLoop_append {α : Type} (lo hi : Int) (f : Int → List α) (init : List α) :
    forLoop lo hi (fun k out => out ++ f k) init
      = init ++ (List.range (hi - lo).toNat).flatMap (fun k => f (lo + (k : Int))) := by
  rw [forLoop_eq_foldl]
  generalize (hi - lo).toNat = n
  induction n with
  | zero => simp
  | succ m ih =>
    rw [List.range_succ, List.foldl_append, ih]
    simp [List.flatMap_append]

/-- The calls of `printBoardWithOverlay`, row by row. -/
theorem printBoardWithOverlay_eq (board overlay : Grid) :
    printBoardWithOverlay board overlay
      = (List.range 10).flatMap (fun (i : Nat) =>
          (List.range 10).map (fun (j : Nat) =>
            PrintfCall.intStr (if overlay (i : Int) (j : Int) = 1 then 5 else board (i : Int) (j : Int))
              (if j = 9 then "" else " "))
          ++ [PrintfCall.newline]) := by
  have hrow : ∀ (i : Int) (out : List PrintfCall),
      forLoop 0 N (fun j out =>
          out ++ [PrintfCall.intStr (if overlay i j = 1 then AOE else board i j)
            (if j = N - 1 then "" else " ")]) out ++ [PrintfCall.newline]
        = out ++ ((List.range 10).map (fun (j : Nat) =>
            PrintfCall.intStr (if overlay i (j : Int) = 1 then 5 else board i (j : Int))
              (if j = 9 then "" else " ")) ++ [PrintfCall.newline]) := by
    intro i out
    rw [forLoop_append]
    simp [N, AOE, List.flatMap_def, List.range_succ]
  have e : printBoardWithOverlay board overlay
      = forLoop 0 N (fun i out => out ++ ((List.range 10).map (fun (j : Nat) =>
            PrintfCall.intStr (if overlay i (j : Int) = 1 then 5 else board i (j : Int))
              (if j = 9 then "" else " ")) ++ [PrintfCall.newline])) [] := by
    unfold printBoardWithOverlay
    congr 1
    funext i out
    exact hrow i out
  rw [e, forLoop_append]
  simp [N, List.flatMap_def, List.range_succ]

/-! ## Counting -/

theorem range_ten_split :
    List.range 10 = [0, 1] ++ ((List.range 7).map (fun (k : Nat) => k + 2) ++ [9]) := by
  decide

/-- Stamping at `(5, 5)` on an overlay without affected board cells: the cell
`(r + 2, c + 2)` is affected exactly when the mask cell `(r, c)` is included, and the
cells of rows and columns `0`, `1` and `9` are not affected. -/
theorem stamp_centre_cell (overlay mask : Grid)
    (h0 : ∀ i j : Int, 0 ≤ i ∧ i < 10 → 0 ≤ j ∧ j < 10 → overlay i j ≠ 1)
    (i j : Nat) (hi : i < 10) (hj : j < 10) :
    (applyMaskAt overlay 5 5 mask (i : Int) (j : Int) = 1) ↔
      (2 ≤ i ∧ i < 9) ∧ (2 ≤ j ∧ j < 9) ∧ mask ((i : Int) - 2) ((j : Int) - 2) = 1 := by
  have h := applyMaskAt_stores_hit 5 5 mask (by decide) (by decide) overlay (i : Int) (j : Int)
  have e1 : (i : Int) - 5 + 3 = (i : Int) - 2 := by omega
  have e2 : (j : Int) - 5 + 3 = (j : Int) - 2 := by omega
  unfold Hit at h
  rw [e1, e2] at h
  have hov := h0 (i : Int) (j : Int) (by omega) (by omega)
  constructor
  · intro h1
    by_cases hh : (0 ≤ (i : Int) ∧ (i : Int) < 10 ∧ 0 ≤ (j : Int) ∧ (j : Int) < 10) ∧
        (0 ≤ (i : Int) - 2 ∧ (i : Int) - 2 ≤ 6) ∧ (0 ≤ (j : Int) - 2 ∧ (j : Int) - 2 ≤ 6) ∧
        mask ((i : Int) - 2) ((j : Int) - 2) = 1
    · exact ⟨by omega, by omega, hh.2.2.2⟩
    · exact absurd ((h.2 hh).symm.trans h1) hov
  · rintro ⟨h1, h2, h3⟩
    exact h.1 ⟨by omega, by omega, by omega, h3⟩

theorem countOnes_stamp_centre (overlay mask : Grid)
    (h0 : ∀ i j : Int, 0 ≤ i ∧ i < 10 → 0 ≤ j ∧ j < 10 → overlay i j ≠ 1) :
    countOnes 10 10 (applyMaskAt overlay 5 5 mask) = countOnes 7 7 mask := by
  have hrow0 : ∀ i : Nat, i < 10 → ¬ (2 ≤ i ∧ i < 9) →
      (List.range 10).countP (fun (j : Nat) =>
        decide (applyMaskAt overlay 5 5 mask (i : Int) (j : Int) = 1)) = 0 := by
    intro i hi hn
    rw [List.countP_eq_zero]
    intro j hj
    have hj' : j < 10 := List.mem_range.mp hj
    simp only [decide_eq_true_eq]
    rw [stamp_centre_cell overlay mask h0 i j hi hj']
    intro h
    exact hn h.1
  have hrow : ∀ r : Nat, r < 7 →
      (List.range 10).countP (fun (j : Nat) =>
        decide (applyMaskAt overlay 5 5 mask ((r + 2 : Nat) : Int) (j : Int) = 1))
      = (List.range 7).countP (fun (c : Nat) => decide (mask (r : Int) (c : Int) = 1)) := by
    intro r hr
    rw [range_ten_split, List.countP_append, List.countP_append, List.countP_map]
    have z1 : List.countP (fun (j : Nat) =>
        decide (applyMaskAt overlay 5 5 mask ((r + 2 : Nat) : Int) (j : Int) = 1)) [0, 1] = 0 := by
      rw [List.countP_eq_zero]
      intro j hj
      simp only [decide_eq_true_eq]
      have hj2 : j < 2 := by
        simp at hj
        omega
      rw [stamp_centre_cell overlay mask h0 (r + 2) j (by omega) (by omega)]
      intro h
      omega
    have z2 : List.countP (fun (j : Nat) =>
        decide (applyMaskAt overlay 5 5 mask ((r + 2 : Nat) : Int) (j : Int) = 1)) [9] = 0 := by
      rw [List.countP_eq_zero]
      intro j hj
      simp only [decide_eq_true_eq]
      have hj2 : j = 9 := by
        simpa using hj
      rw [stamp_centre_cell overlay mask h0 (r + 2) j (by omega) (by omega)]
      intro h
      omega
    rw [z1, z2, Nat.zero_add, Nat.add_zero]
    apply List.countP_congr
    intro c hc
    have hc' : c < 7 := List.mem_range.mp hc
    simp only [Function.comp, decide_eq_true_eq]
    rw [stamp_centre_cell overlay mask h0 (r + 2) (c + 2) (by omega) (by omega)]
    have e1 : ((r + 2 : Nat) : Int) - 2 = (r : Int) := by omega
    have e2 : ((c + 2 : Nat) : Int) - 2 = (c : Int) := by omega
    rw [e1, e2]
    constructor
    · intro h
      exact h.2.2
    · intro h
      exact ⟨by omega, by omega, h⟩
  unfold countOnes
  rw [range_ten_split, List.map_append, List.map_append, List.sum_append, List.sum_append,
    List.map_map]
  have s1 : (List.map (fun (i : Nat) => List.countP (fun (j : Nat) =>
      decide (applyMaskAt overlay 5 5 mask (i : Int) (j : Int) = 1))
      ([0, 1] ++ ((List.range 7).map (fun (k : Nat) => k + 2) ++ [9]))) [0, 1]).sum = 0 := by
    rw [← range_ten_split]
    simp only [List.map_cons, List.map_nil, List.sum_cons, List.sum_nil]
    rw [hrow0 0 (by omega) (by omega), hrow0 1 (by omega) (by omega)]
    rfl
  have s2 : (List.map (fun (i : Nat) => List.countP (fun (j : Nat) =>
      decide (applyMaskAt overlay 5 5 mask (i : Int) (j : Int) = 1))
      ([0, 1] ++ ((List.range 7).map (fun (k : Nat) => k + 2) ++ [9]))) [9]).sum = 0 := by
    rw [← range_ten_split]
    simp only [List.map_cons, List.map_nil, List.sum_cons, List.sum_nil]
    rw [hrow0 9 (by omega) (by omega)]
    rfl
  rw [s1, s2, Nat.zero_add, Nat.add_zero, ← range_ten_split]
  congr 1
  apply List.map_congr_left
  intro r hr
  exact hrow r (List.mem_range.mp hr)

/-- The count of a grid depends only on which of the counted cells hold `1`. -/
theorem countOnes_congr (rows cols : Nat) (g g' : Grid)
    (h : ∀ i j : Nat, i < rows → j < cols →
      (g (i : Int) (j : Int) = 1 ↔ g' (i : Int) (j : Int) = 1)) :
    countOnes rows cols g = countOnes rows cols g' := by
  unfold countOnes
  congr 1
  apply List.map_congr_left
  intro i hi
  apply List.countP_congr
  intro j hj
  simp only [decide_eq_true_eq]
  exact h i j (List.mem_range.mp hi) (List.mem_range.mp hj)

theorem rowOnes_congr (cols : Nat) (g g' : Grid) (i : Nat)
    (h : ∀ j : Nat, j < cols → (g (i : Int) (j : Int) = 1 ↔ g' (i : Int) (j : Int) = 1)) :
    rowOnes cols g i = rowOnes cols g' i := by
  unfold rowOnes
  apply List.countP_congr
  intro j hj
  simp only [decide_eq_true_eq]
  exact h j (List.mem_range.mp hj)

/-- The cells reached by a stamp depend only on the cells of the 7x7 mask. -/
theorem hit_congr (originRow originCol : Int) (mask mask' : Grid) (i j : Int)
    (h : ∀ r c : Int, 0 ≤ r ∧ r ≤ 6 → 0 ≤ c ∧ c ≤ 6 → mask r c = mask' r c) :
    Hit originRow originCol mask i j ↔ Hit originRow originCol mask' i j := by
  unfold Hit
  constructor
  · rintro ⟨h1, h2, h3, h4⟩
    exact ⟨h1, h2, h3, (h _ _ h2 h3) ▸ h4⟩
  · rintro ⟨h1, h2, h3, h4⟩
    exact ⟨h1, h2, h3, (h _ _ h2 h3).symm ▸ h4⟩

theorem buildConeMask_eq_shape (mask : Grid) (r c : Int)
    (hr : 0 ≤ r ∧ r ≤ 6) (hc : 0 ≤ c ∧ c ≤ 6) : buildConeMask mask r c = coneShape r c := by
  rw [buildConeMask_apply, if_pos ⟨⟨hr.1, by omega⟩, hc.1, by omega⟩]
  rfl

theorem buildCrossMask_eq_shape (mask : Grid) (r c : Int)
    (hr : 0 ≤ r ∧ r ≤ 6) (hc : 0 ≤ c ∧ c ≤ 6) : buildCrossMask mask r c = crossShape r c := by
  rw [buildCrossMask_apply, if_pos ⟨⟨hr.1, by omega⟩, hc.1, by omega⟩]
  rfl

theorem buildOctaMask_eq_shape (mask : Grid) (r c : Int)
    (hr : 0 ≤ r ∧ r ≤ 6) (hc : 0 ≤ c ∧ c ≤ 6) : buildOctaMask mask r c = octaShape r c := by
  rw [buildOctaMask_apply, if_pos ⟨⟨hr.1, by omega⟩, hc.1, by omega⟩]
  rfl

/-- The count of a built mask is the count of its shape. -/
theorem countOnes_mask (built shape : Grid)
    (h : ∀ r c : Int, 0 ≤ r ∧ r ≤ 6 → 0 ≤ c ∧ c ≤ 6 → built r c = shape r c) :
    countOnes 7 7 built = countOnes 7 7 shape := by
  apply countOnes_congr
  intro i j hi hj
  rw [h (i : Int) (j : Int) (by omega) (by omega)]

/-- The count of an overlay stamped once, from an overlay without affected board cells,
is the count of the cells reached by the stamp. -/
theorem countOnes_stamp (overlay built shape : Grid) (originRow originCol : Int)
    (hR : isInt32 originRow) (hC : isInt32 originCol)
    (h0 : ∀ i j : Int, 0 ≤ i ∧ i < 10 → 0 ≤ j ∧ j < 10 → overlay i j ≠ 1)
    (h : ∀ r c : Int, 0 ≤ r ∧ r ≤ 6 → 0 ≤ c ∧ c ≤ 6 → built r c = shape r c) :
    countOnes 10 10 (applyMaskAt overlay originRow originCol built)
      = countOnes 10 10 (fun i j => if Hit originRow originCol shape i j then 1 else 0) := by
  apply countOnes_congr
  intro i j hi hj
  rw [applyMaskAt_apply overlay originRow originCol built hR hC]
  have hc := hit_congr originRow originCol built shape (i : Int) (j : Int) h
  have hov := h0 (i : Int) (j : Int) (by omega) (by omega)
  by_cases hh : Hit originRow originCol built (i : Int) (j : Int)
  · simp only [if_pos hh, if_pos (hc.mp hh)]
  · have hh' : ¬ Hit originRow originCol shape (i : Int) (j : Int) := fun q => hh (hc.mpr q)
    simp only [if_neg hh, if_neg hh']
    constructor
    · intro q
      exact absurd q hov
    · intro q
      exact absurd q (by decide)

theorem countOnes_coneShape : countOnes 7 7 coneShape = 37 := by decide

theorem countOnes_crossShape : countOnes 7 7 crossShape = 13 := by decide

theorem countOnes_octaShape : countOnes 7 7 octaShape = 25 := by decide

theorem countOnes_corner_cone :
    countOnes 10 10 (fun i j => if Hit 0 0 coneShape i j then 1 else 0) = 16 := by decide

theorem countOnes_corner_cross :
    countOnes 10 10 (fun i j => if Hit 0 0 crossShape i j then 1 else 0) = 7 := by decide

theorem countOnes_corner_octa :
    countOnes 10 10 (fun i j => if Hit 0 0 octaShape i j then 1 else 0) = 10 := by decide

/-- The value printed by `printBoardWithOverlay` for each cell of the board. -/
theorem displayedValue_print (board overlay : Grid) (i j : Nat) (hi : i < 10) (hj : j < 10) :
    displayedValue (printBoardWithOverlay board overlay) i j
      = some (if overlay (i : Int) (j : Int) = 1 then 5 else board (i : Int) (j : Int)) := by
  rw [printBoardWithOverlay_eq]
  unfold displayedValue
  interval_cases i <;> interval_cases j <;> rfl

/-- Value of every cell after `placeExampleShips`. -/
theorem placeExampleShips_apply (board : Grid) (i j : Int) :
    placeExampleShips board i j
      = if (i = 2 ∧ 1 ≤ j ∧ j ≤ 3) ∨ (5 ≤ i ∧ i ≤ 8 ∧ j = 7) ∨ (i = 8 ∧ j = 2) then 3
        else board i j := by
  have h1 : Stores 3 (fun i j => ∃ c, 1 ≤ c ∧ c < 3 + 1 ∧ (i = 2 ∧ j = c))
      (forLoop 1 (3 + 1) (fun c board => setCell board 2 c SHIP)) :=
    stores_forLoop 1 (3 + 1) (fun c i j => i = 2 ∧ j = c) _ (fun c _ _ => stores_setCell 3 2 c)
  have h2 : Stores 3 (fun i j => ∃ r, 5 ≤ r ∧ r < min N 9 ∧ (i = r ∧ j = 7))
      (forLoop 5 (min N 9) (fun r board => setCell board r 7 SHIP)) :=
    stores_forLoop 5 (min N 9) (fun r i j => i = r ∧ j = 7) _ (fun r _ _ => stores_setCell 3 r 7)
  have h3 : Stores 3 (fun i j => i = 8 ∧ j = 2) (fun board => setCell board 8 2 SHIP) :=
    stores_setCell 3 8 2
  have h := stores_seq (stores_seq h1 h2) h3 board i j
  have e9 : min N 9 = 9 := by decide
  rw [e9] at h
  by_cases hq : (i = 2 ∧ 1 ≤ j ∧ j ≤ 3) ∨ (5 ≤ i ∧ i ≤ 8 ∧ j = 7) ∨ (i = 8 ∧ j = 2)
  · rw [if_pos hq]
    apply h.1
    rcases hq with ⟨q1, q2, q3⟩ | ⟨q1, q2, q3⟩ | ⟨q1, q2⟩
    · exact Or.inl (Or.inl ⟨j, q2, by omega, q1, rfl⟩)
    · exact Or.inl (Or.inr ⟨i, q1, by omega, rfl, q3⟩)
    · exact Or.inr ⟨q1, q2⟩
  · rw [if_neg hq]
    apply h.2
    rintro ((⟨c, q1, q2, q3, q4⟩ | ⟨r, q1, q2, q3, q4⟩) | ⟨q1, q2⟩)
    · exact hq (Or.inl ⟨q3, by omega, by omega⟩)
    · exact hq (Or.inr (Or.inl ⟨by omega, by omega, q4⟩))
    · exact hq (Or.inr (Or.inr ⟨q1, q2⟩))

/-- The board cells reached by the cross mask stamped at an origin. -/
theorem hit_cross (originRow originCol : Int) (mask : Grid) (i j : Int) :
    Hit originRow originCol (buildCrossMask mask) i j ↔
      ((0 ≤ i ∧ i < 10) ∧ (0 ≤ j ∧ j < 10)) ∧
      ((originRow - 3 ≤ i ∧ i ≤ originRow + 3) ∧ (originCol - 3 ≤ j ∧ j ≤ originCol + 3)) ∧
      (i = originRow ∨ j = originCol) := by
  rw [hit_congr originRow originCol (buildCrossMask mask) crossShape i j
    (buildCrossMask_eq_shape mask)]
  unfold Hit crossShape
  constructor
  · rintro ⟨h1, h2, h3, h4⟩
    refine ⟨⟨⟨h1.1, h1.2.1⟩, h1.2.2.1, h1.2.2.2⟩, ⟨⟨by omega, by omega⟩, by omega, by omega⟩, ?_⟩
    split_ifs at h4 with hq
    · omega
    · exact absurd h4 (by decide)
  · rintro ⟨h1, h2, h3⟩
    refine ⟨⟨h1.1.1, h1.1.2, h1.2.1, h1.2.2⟩, ⟨by omega, by omega⟩, ⟨by omega, by omega⟩, ?_⟩
    rw [if_pos]
    omega

/-- The board cells reached by the cone mask stamped at an origin. -/
theorem hit_cone (originRow originCol : Int) (mask : Grid) (i j : Int) :
    Hit originRow originCol (buildConeMask mask) i j ↔
      ((0 ≤ i ∧ i < 10) ∧ (0 ≤ j ∧ j < 10)) ∧
      ((originRow - 3 ≤ i ∧ i ≤ originRow + 3) ∧ (originCol - 3 ≤ j ∧ j ≤ originCol + 3)) ∧
      (originCol - (i - originRow + 3) ≤ j ∧ j ≤ originCol + (i - originRow + 3)) := by
  rw [hit_congr originRow originCol (buildConeMask mask) coneShape i j
    (buildConeMask_eq_shape mask)]
  unfold Hit coneShape
  constructor
  · rintro ⟨h1, h2, h3, h4⟩
    refine ⟨⟨⟨h1.1, h1.2.1⟩, h1.2.2.1, h1.2.2.2⟩, ⟨⟨by omega, by omega⟩, by omega, by omega⟩, ?_⟩
    split_ifs at h4 with hq
    · omega
    · exact absurd h4 (by decide)
  · rintro ⟨h1, h2, h3⟩
    refine ⟨⟨h1.1.1, h1.1.2, h1.2.1, h1.2.2⟩, ⟨by omega, by omega⟩, ⟨by omega, by omega⟩, ?_⟩
    rw [if_pos]
    omega

/-- The board cells reached by the diamond mask stamped at an origin. -/
theorem hit_octa (originRow originCol : Int) (mask : Grid) (i j : Int) :
    Hit originRow originCol (buildOctaMask mask) i j ↔
      ((0 ≤ i ∧ i < 10) ∧ (0 ≤ j ∧ j < 10)) ∧ |i - originRow| + |j - originCol| ≤ 3 := by
  rw [hit_congr originRow originCol (buildOctaMask mask) octaShape i j
    (buildOctaMask_eq_shape mask)]
  unfold Hit octaShape
  have e1 : i - originRow + 3 - 3 = i - originRow := by omega
  have e2 : j - originCol + 3 - 3 = j - originCol := by omega
  rw [e1, e2]
  constructor
  · rintro ⟨h1, h2, h3, h4⟩
    refine ⟨⟨⟨h1.1, h1.2.1⟩, h1.2.2.1, h1.2.2.2⟩, ?_⟩
    split_ifs at h4 with hq
    · exact hq
    · exact absurd h4 (by decide)
  · rintro ⟨h1, h2⟩
    have a1 := abs_nonneg (i - originRow)
    have a2 := abs_nonneg (j - originCol)
    have b1 := abs_le.mp (show |i - originRow| ≤ 3 by omega)
    have b2 := abs_le.mp (show |j - originCol| ≤ 3 by omega)
    refine ⟨⟨h1.1.1, h1.1.2, h1.2.1, h1.2.2⟩, ⟨by omega, by omega⟩, ⟨by omega, by omega⟩, ?_⟩
    rw [if_pos h2]

theorem rowOnes_coneShape : (List.range 7).map (rowOnes 7 coneShape) = [1, 3, 5, 7, 7, 7, 7] := by
  decide

/-- The counts of the rows of a built mask are the counts of the rows of its shape. -/
theorem rowOnes_mask (built shape : Grid)
    (h : ∀ r c : Int, 0 ≤ r ∧ r ≤ 6 → 0 ≤ c ∧ c ≤ 6 → built r c = shape r c) :
    (List.range 7).map (rowOnes 7 built) = (List.range 7).map (rowOnes 7 shape) := by
  apply List.map_congr_left
  intro i hi
  have hi' : i < 7 := List.mem_range.mp hi
  apply rowOnes_congr
  intro j hj
  rw [h (i : Int) (j : Int) (by omega) (by omega)]

/-! ## The output text -/

theorem string_join_append (l₁ l₂ : List String) :
    String.join (l₁ ++ l₂) = String.join l₁ ++ String.join l₂ := by
  apply String.ext
  simp [String.join_eq]

theorem string_join_flatMap {α : Type} (l : List α) (f : α → List String) :
    String.join (l.flatMap f) = String.join (l.map (fun x => String.join (f x))) := by
  induction l with
  | nil => rfl
  | cons a t ih =>
    rw [List.flatMap_cons, string_join_append, ih, List.map_cons]
    apply String.ext
    simp [String.join_eq]

/-- The text of one row of ten `printf` calls followed by the call for the newline. -/
theorem row_text (v : Nat → Int) :
    String.join (((List.range 10).map (fun (j : Nat) =>
        PrintfCall.intStr (v j) (if j = 9 then "" else " "))).map PrintfCall.text
        ++ List.map PrintfCall.text [PrintfCall.newline])
      = String.intercalate " " ((List.range 10).map (fun (j : Nat) => toString (v j)))
        ++ "\n" := by
  simp [List.range_succ, String.join, String.intercalate, String.intercalate.go,
    PrintfCall.text, String.append_assoc]

/-- The text written by `printBoardWithOverlay`, line by line. -/
theorem stdoutText_print (board overlay : Grid) :
    stdoutText (printBoardWithOverlay board overlay)
      = String.join ((List.range 10).map (fun (i : Nat) =>
          String.intercalate " " ((List.range 10).map (fun (j : Nat) =>
            toString (if overlay (i : Int) (j : Int) = 1 then 5 else board (i : Int) (j : Int))))
          ++ "\n")) := by
  rw [printBoardWithOverlay_eq]
  unfold stdoutText
  rw [List.map_flatMap, string_join_flatMap]
  refine congrArg String.join ?_
  apply List.map_congr_left
  intro i _
  rw [List.map_append]
  exact row_text (fun j => if overlay (i : Int) (j : Int) = 1 then 5 else board (i : Int) (j : Int))

theorem digitChar_isDigit (d : Nat) (h : d < 10) : (Nat.digitChar d).isDigit = true := by
  interval_cases d <;> rfl

theorem toDigitsCore_all (fuel : Nat) : ∀ (n : Nat) (ds : List Char),
    ds.all Char.isDigit = true → (Nat.toDigitsCore 10 fuel n ds).all Char.isDigit = true := by
  induction fuel with
  | zero =>
    intro n ds h
    simpa [Nat.toDigitsCore] using h
  | succ f ih =>
    intro n ds h
    have hd : (Nat.digitChar (n % 10)).isDigit = true :=
      digitChar_isDigit (n % 10) (Nat.mod_lt n (by decide))
    have hcons : (Nat.digitChar (n % 10) :: ds).all Char.isDigit = true := by
      rw [List.all_cons, hd, h]
      rfl
    unfold Nat.toDigitsCore
    by_cases hz : n / 10 = 0
    · simp only [hz, if_true]
      exact hcons
    · simp only [hz, if_false]
      exact ih (n / 10) _ hcons

theorem toDigitsCore_ne_nil (fuel : Nat) : ∀ (n : Nat) (ds : List Char),
    (fuel ≠ 0 ∨ ds ≠ []) → Nat.toDigitsCore 10 fuel n ds ≠ [] := by
  induction fuel with
  | zero =>
    intro n ds h
    rcases h with h | h
    · exact absurd rfl h
    · simpa [Nat.toDigitsCore] using h
  | succ f ih =>
    intro n ds _
    unfold Nat.toDigitsCore
    by_cases hz : n / 10 = 0
    · simp only [hz, if_true]
      exact List.cons_ne_nil _ _
    · simp only [hz, if_false]
      exact ih (n / 10) _ (Or.inr (List.cons_ne_nil _ _))

theorem isDecimalChars_digits (l : List Char) (hne : l ≠ []) (hall : l.all Char.isDigit = true) :
    isDecimalChars l = true := by
  cases l with
  | nil => exact absurd rfl hne
  | cons c t =>
    have hc : c.isDigit = true := by
      rw [List.all_cons] at hall
      exact (Bool.and_eq_true _ _ ▸ hall).1
    unfold isDecimalChars
    split
    · rename_i ds heq
      injection heq with h1 h2
      rw [h1] at hc
      exact absurd hc (by decide)
    · simp [hall]

theorem isDecimal_nat (m : Nat) : isDecimalChars (Nat.toDigits 10 m) = true := by
  apply isDecimalChars_digits
  · exact toDigitsCore_ne_nil (m + 1) m [] (Or.inl (Nat.succ_ne_zero m))
  · exact toDigitsCore_all (m + 1) m [] rfl

theorem isDecimal_toString (v : Int) : isDecimal (toString v) = true := by
  unfold isDecimal
  cases v with
  | ofNat m =>
    show isDecimalChars (Nat.toDigits 10 m) = true
    exact isDecimal_nat m
  | negSucc m =>
    show isDecimalChars ('-' :: Nat.toDigits 10 (m + 1)) = true
    unfold isDecimalChars
    have h1 := toDigitsCore_ne_nil (m + 1 + 1) (m + 1) [] (Or.inl (Nat.succ_ne_zero _))
    have h2 := toDigitsCore_all (m + 1 + 1) (m + 1) [] rfl
    simp only [Nat.toDigits] at *
    simp [h1, h2]

/-! ## The example run -/

/-- The calls of `printBoardWithOverlay` depend only on the values it prints for the
cells of the board. -/
theorem printBoardWithOverlay_congr (board overlay board' overlay' : Grid)
    (h : ∀ i j : Nat, i < 10 → j < 10 →
      (if overlay (i : Int) (j : Int) = 1 then (5 : Int) else board (i : Int) (j : Int))
        = (if overlay' (i : Int) (j : Int) = 1 then 5 else board' (i : Int) (j : Int))) :
    printBoardWithOverlay board overlay = printBoardWithOverlay board' overlay' := by
  rw [printBoardWithOverlay_eq, printBoardWithOverlay_eq, List.flatMap_def, List.flatMap_def]
  refine congrArg List.flatten ?_
  apply List.map_congr_left
  intro i hi
  refine congrArg (fun l => l ++ [PrintfCall.newline]) ?_
  apply List.map_congr_left
  intro j hj
  rw [h i j (List.mem_range.mp hi) (List.mem_range.mp hj)]

/-- The board of `main` on the cells of the board. -/
theorem main_board_cells (board : Grid) (i j : Int) (hi : 0 ≤ i ∧ i < 10)
    (hj : 0 ≤ j ∧ j < 10) :
    placeExampleShips (clearIntGrid N N board) i j = exampleBoard i j := by
  rw [placeExampleShips_apply, clearIntGrid_apply]
  have hin : (0 ≤ i ∧ i < N) ∧ (0 ≤ j ∧ j < N) := ⟨hi, hj⟩
  simp only [if_pos hin]
  rfl

/-- The overlay of `main` on the cells of the board. -/
theorem main_overlay_cells (overlay cone cross octa : Grid) (i j : Int)
    (hi : 0 ≤ i ∧ i < 10) (hj : 0 ≤ j ∧ j < 10) :
    applyMaskAt (applyMaskAt (applyMaskAt (clearIntGrid N N overlay) 1 3 (buildConeMask cone))
        5 5 (buildCrossMask cross)) 7 2 (buildOctaMask octa) i j
      = exampleOverlay i j := by
  rw [applyMaskAt_apply _ 7 2 _ (by decide) (by decide),
    applyMaskAt_apply _ 5 5 _ (by decide) (by decide),
    applyMaskAt_apply _ 1 3 _ (by decide) (by decide)]
  have hz : clearIntGrid N N overlay i j = 0 := by
    rw [clearIntGrid_apply, if_pos]
    exact ⟨hi, hj⟩
  have h1 := hit_congr 1 3 (buildConeMask cone) coneShape i j (buildConeMask_eq_shape cone)
  have h2 := hit_congr 5 5 (buildCrossMask cross) crossShape i j (buildCrossMask_eq_shape cross)
  have h3 := hit_congr 7 2 (buildOctaMask octa) octaShape i j (buildOctaMask_eq_shape octa)
  unfold exampleOverlay
  simp only [h1, h2, h3, hz]
  by_cases q3 : Hit 7 2 octaShape i j
  · simp [q3]
  · by_cases q2 : Hit 5 5 crossShape i j
    · simp [q2]
    · by_cases q1 : Hit 1 3 coneShape i j
      · simp [q1]
      · simp [q1, q2, q3]

/-- The calls of `main` are those of printing the closed forms of its board and
overlay. -/
theorem main_calls (board overlay cone cross octa : Grid) :
    (main board overlay cone cross octa).1
      = printBoardWithOverlay exampleBoard exampleOverlay := by
  have e : (main board overlay cone cross octa).1
      = printBoardWithOverlay (placeExampleShips (clearIntGrid N N board))
          (applyMaskAt (applyMaskAt (applyMaskAt (clearIntGrid N N overlay) 1 3
            (buildConeMask cone)) 5 5 (buildCrossMask cross)) 7 2 (buildOctaMask octa)) :=
    rfl
  rw [e]
  apply printBoardWithOverlay_congr
  intro i j hi hj
  rw [main_board_cells board (i : Int) (j : Int) (by omega) (by omega),
    main_overlay_cells overlay cone cross octa (i : Int) (j : Int) (by omega) (by omega)]

set_option maxRecDepth 100000 in
theorem example_text :
    stdoutText (printBoardWithOverlay exampleBoard exampleOverlay)
      = "0 5 5 5 5 5 0 0 0 0\n5 5 5 5 5 5 5 0 0 0\n5 5 5 5 5 5 5 0 0 0\n5 5 5 5 5 5 5 0 0 0\n5 5 5 5 5 5 5 0 0 0\n0 5 5 5 5 5 5 5 5 0\n5 5 5 5 5 5 0 3 0 0\n5 5 5 5 5 5 0 3 0 0\n5 5 5 5 5 5 0 3 0 0\n0 5 5 5 0 0 0 0 0 0\n" := by
  decide

set_option maxRecDepth 100000 in
theorem example_rows :
    (List.range 10).map (fun (i : Nat) => (List.range 10).map (fun (j : Nat) =>
        displayedValue (printBoardWithOverlay exampleBoard exampleOverlay) i j))
      = List.map (List.map some)
        [[0, 5, 5, 5, 5, 5, 0, 0, 0, 0],
         [5, 5, 5, 5, 5, 5, 5, 0, 0, 0],
         [5, 5, 5, 5, 5, 5, 5, 0, 0, 0],
         [5, 5, 5, 5, 5, 5, 5, 0, 0, 0],
         [5, 5, 5, 5, 5, 5, 5, 0, 0, 0],
         [0, 5, 5, 5, 5, 5, 5, 5, 5, 0],
         [5, 5, 5, 5, 5, 5, 0, 3, 0, 0],
         [5, 5, 5, 5, 5, 5, 0, 3, 0, 0],
         [5, 5, 5, 5, 5, 5, 0, 3, 0, 0],
         [0, 5, 5, 5, 0, 0, 0, 0, 0, 0]] := by
  decide

set_option maxRecDepth 100000 in
theorem example_threes :
    (List.range 10).flatMap (fun (i : Nat) =>
        ((List.range 10).filter (fun (j : Nat) =>
          decide (displayedValue (printBoardWithOverlay exampleBoard exampleOverlay) i j
            = some 3))).map
          (fun (j : Nat) => (i, j)))
      = [(6, 7), (7, 7), (8, 7)] := by
  decide

set_option maxRecDepth 100000 in
theorem example_fives :
    ∀ p ∈ [(2, 1), (2, 2), (2, 3), (5, 7), (8, 2)],
      displayedValue (printBoardWithOverlay exampleBoard exampleOverlay) p.1 p.2 = some 5 := by
  decide

/-! ## Masks of any odd side -/

theorem countP_interval (a b : Nat) : ∀ n : Nat,
    (List.range n).countP (fun (j : Nat) => decide (a ≤ j ∧ j ≤ b)) = min n (b + 1) - a := by
  intro n
  induction n with
  | zero => simp
  | succ m ih =>
    rw [List.range_succ, List.countP_append, ih]
    by_cases h : a ≤ m ∧ m ≤ b
    · rw [List.countP_singleton]
      simp only [h, and_self, decide_True, if_true]
      omega
    · rw [List.countP_singleton]
      simp only [h, decide_False]
      simp only [Bool.false_eq_true, if_false]
      omega

theorem sum_one_special (c a : Nat) (ha : 1 ≤ a) : ∀ n : Nat,
    ((List.range n).map (fun (i : Nat) => if i = c then a else 1)).sum
      = n + (if c < n then a - 1 else 0) := by
  intro n
  induction n with
  | zero => simp
  | succ m ih =>
    rw [List.range_succ, List.map_append, List.sum_append, ih]
    simp only [List.map_cons, List.map_nil, List.sum_cons, List.sum_nil]
    by_cases h1 : m = c
    · have h2 : ¬ c < m := by omega
      have h3 : c < m + 1 := by omega
      rw [if_pos h1, if_neg h2, if_pos h3]
      omega
    · by_cases h2 : c < m
      · have h3 : c < m + 1 := by omega
        rw [if_neg h1, if_pos h2, if_pos h3]
        omega
      · have h3 : ¬ c < m + 1 := by omega
        rw [if_neg h1, if_neg h2, if_neg h3]
        omega

theorem sum_rising (c : Nat) : ∀ n : Nat, n ≤ c + 1 →
    ((List.range n).map (fun (i : Nat) =>
      2 * (c - (if i ≤ c then c - i else i - c)) + 1)).sum = n * n := by
  intro n
  induction n with
  | zero => intro _; rfl
  | succ m ih =>
    intro hm
    rw [List.range_succ, List.map_append, List.sum_append, ih (by omega)]
    simp only [List.map_cons, List.map_nil, List.sum_cons, List.sum_nil]
    have e1 : (if m ≤ c then c - m else m - c) = c - m := if_pos (by omega)
    have e2 : c - (c - m) = m := by omega
    rw [e1, e2]
    ring

theorem sum_falling (c : Nat) : ∀ k : Nat, k ≤ c →
    ((List.range (c + 1 + k)).map (fun (i : Nat) =>
      2 * (c - (if i ≤ c then c - i else i - c)) + 1)).sum + k * k
      = (c + 1) * (c + 1) + 2 * c * k := by
  intro k
  induction k with
  | zero =>
    intro _
    rw [Nat.add_zero, sum_rising c (c + 1) (le_refl _)]
    ring
  | succ m ih =>
    intro hm
    have e0 : c + 1 + (m + 1) = (c + 1 + m) + 1 := by omega
    rw [e0, List.range_succ, List.map_append, List.sum_append]
    simp only [List.map_cons, List.map_nil, List.sum_cons, List.sum_nil]
    have e1 : (if c + 1 + m ≤ c then c - (c + 1 + m) else c + 1 + m - c) = m + 1 :=
      by rw [if_neg (by omega)]; omega
    rw [e1]
    obtain ⟨e, he⟩ : ∃ e, c = m + 1 + e := ⟨c - (m + 1), by omega⟩
    have e2 : c - (m + 1) = e := by omega
    rw [e2]
    have ih' := ih (by omega)
    subst he
    nlinarith [ih']

theorem sum_diamond (c : Nat) :
    ((List.range (2 * c + 1)).map (fun (i : Nat) =>
      2 * (c - (if i ≤ c then c - i else i - c)) + 1)).sum = 2 * c ^ 2 + 2 * c + 1 := by
  have h := sum_falling c c (le_refl _)
  have e : c + 1 + c = 2 * c + 1 := by omega
  rw [e] at h
  nlinarith [h]

/-- Clearing an `M` by `M` mask and then storing `1` in the cells selected by a test. -/
theorem clear_then_select_of (M : Int) (P : Int → Int → Prop) [∀ r c, Decidable (P r c)]
    (mask : Grid) (r c : Int) :
    forLoop 0 M (fun r mask =>
        forLoop 0 M (fun c mask => if P r c then setCell mask r c 1 else mask) mask)
      (clearIntGrid M M mask) r c
      = if (0 ≤ r ∧ r < M) ∧ (0 ≤ c ∧ c < M) then (if P r c then 1 else 0)
        else mask r c := by
  have hl : Stores 1
      (fun i j => ∃ k, 0 ≤ k ∧ k < M ∧ ∃ l, 0 ≤ l ∧ l < M ∧ (P k l ∧ (i = k ∧ j = l)))
      (fun m => forLoop 0 M (fun r mask =>
        forLoop 0 M (fun c mask => if P r c then setCell mask r c 1 else mask) mask) m) :=
    stores_forLoop 0 M
      (fun k i j => ∃ l, 0 ≤ l ∧ l < M ∧ (P k l ∧ (i = k ∧ j = l))) _
      (fun k _ _ => stores_forLoop 0 M (fun l i j => P k l ∧ (i = k ∧ j = l)) _
        (fun l _ _ => stores_guard (P k l) (stores_setCell 1 k l)))
  have h := hl (clearIntGrid M M mask) r c
  have hc := clearIntGrid_apply M M mask r c
  by_cases hin : (0 ≤ r ∧ r < M) ∧ (0 ≤ c ∧ c < M)
  · rw [if_pos hin]
    rw [if_pos hin] at hc
    by_cases hq : P r c
    · rw [if_pos hq]
      exact h.1 ⟨r, hin.1.1, hin.1.2, c, hin.2.1, hin.2.2, hq, rfl, rfl⟩
    · rw [if_neg hq]
      refine (h.2 ?_).trans hc
      rintro ⟨k, _, _, l, _, _, hp, rfl, rfl⟩
      exact hq hp
  · rw [if_neg hin]
    rw [if_neg hin] at hc
    refine (h.2 ?_).trans hc
    rintro ⟨k, hk0, hk1, l, hl0, hl1, _, rfl, rfl⟩
    exact hin ⟨⟨hk0, hk1⟩, hl0, hl1⟩

theorem odd_half (c : Nat) : (2 * (c : Int) + 1) / 2 = (c : Int) := by omega

/-- The cross mask of side `2 * c + 1`: its included cells. -/
theorem buildCrossMaskOf_cell (c : Nat) (mask : Grid) (i j : Nat)
    (hi : i < 2 * c + 1) (hj : j < 2 * c + 1) :
    buildCrossMaskOf (2 * (c : Int) + 1) mask (i : Int) (j : Int) = 1 ↔ (i = c ∨ j = c) := by
  have e : buildCrossMaskOf (2 * (c : Int) + 1) mask (i : Int) (j : Int)
      = if (0 ≤ (i : Int) ∧ (i : Int) < 2 * (c : Int) + 1) ∧
          (0 ≤ (j : Int) ∧ (j : Int) < 2 * (c : Int) + 1)
        then (if (i : Int) = (2 * (c : Int) + 1) / 2 ∨ (j : Int) = (2 * (c : Int) + 1) / 2
          then 1 else 0)
        else mask (i : Int) (j : Int) :=
    clear_then_select_of (2 * (c : Int) + 1)
      (fun r k => r = (2 * (c : Int) + 1) / 2 ∨ k = (2 * (c : Int) + 1) / 2) mask
      (i : Int) (j : Int)
  rw [odd_half] at e
  rw [e, if_pos (by omega)]
  by_cases hq : (i : Int) = (c : Int) ∨ (j : Int) = (c : Int)
  · rw [if_pos hq]
    constructor
    · intro _
      omega
    · intro _
      rfl
  · rw [if_neg hq]
    constructor
    · intro h0
      exact absurd h0 (by decide)
    · intro h0
      omega

/-- The diamond mask of side `2 * c + 1`: its included cells in row `i`, where `d` is
the distance from `i` to `c` and `w = c - d`. -/
theorem buildOctaMaskOf_cell (c : Nat) (mask : Grid) (i j : Nat)
    (hi : i < 2 * c + 1) (hj : j < 2 * c + 1)
    (d w : Nat) (hd : (i ≤ c ∧ i + d = c) ∨ (c < i ∧ i = c + d)) (hw : d + w = c) :
    buildOctaMaskOf (2 * (c : Int) + 1) mask (i : Int) (j : Int) = 1 ↔
      (d ≤ j ∧ j ≤ c + w) := by
  have e : buildOctaMaskOf (2 * (c : Int) + 1) mask (i : Int) (j : Int)
      = if (0 ≤ (i : Int) ∧ (i : Int) < 2 * (c : Int) + 1) ∧
          (0 ≤ (j : Int) ∧ (j : Int) < 2 * (c : Int) + 1)
        then (if (if (i : Int) > (2 * (c : Int) + 1) / 2 then (i : Int) - (2 * (c : Int) + 1) / 2
              else (2 * (c : Int) + 1) / 2 - (i : Int))
            + (if (j : Int) > (2 * (c : Int) + 1) / 2 then (j : Int) - (2 * (c : Int) + 1) / 2
              else (2 * (c : Int) + 1) / 2 - (j : Int))
            ≤ (2 * (c : Int) + 1) / 2 then 1 else 0)
        else mask (i : Int) (j : Int) :=
    clear_then_select_of (2 * (c : Int) + 1)
      (fun r k => (if r > (2 * (c : Int) + 1) / 2 then r - (2 * (c : Int) + 1) / 2
          else (2 * (c : Int) + 1) / 2 - r)
        + (if k > (2 * (c : Int) + 1) / 2 then k - (2 * (c : Int) + 1) / 2
          else (2 * (c : Int) + 1) / 2 - k) ≤ (2 * (c : Int) + 1) / 2) mask (i : Int) (j : Int)
  rw [odd_half] at e
  have key : ((if (i : Int) > (c : Int) then (i : Int) - (c : Int) else (c : Int) - (i : Int))
      + (if (j : Int) > (c : Int) then (j : Int) - (c : Int) else (c : Int) - (j : Int))
      ≤ (c : Int)) ↔ (d ≤ j ∧ j ≤ c + w) := by
    rcases hd with ⟨h1, h1'⟩ | ⟨h1, h1'⟩
    · have a1 : ¬ ((i : Int) > (c : Int)) := by omega
      by_cases h2 : j ≤ c
      · have a2 : ¬ ((j : Int) > (c : Int)) := by omega
        rw [if_neg a1, if_neg a2]
        omega
      · have a2 : (j : Int) > (c : Int) := by omega
        rw [if_neg a1, if_pos a2]
        omega
    · have a1 : (i : Int) > (c : Int) := by omega
      by_cases h2 : j ≤ c
      · have a2 : ¬ ((j : Int) > (c : Int)) := by omega
        rw [if_pos a1, if_neg a2]
        omega
      · have a2 : (j : Int) > (c : Int) := by omega
        rw [if_pos a1, if_pos a2]
        omega
  rw [e, if_pos (by omega), ← key]
  by_cases hq : (if (i : Int) > (c : Int) then (i : Int) - (c : Int) else (c : Int) - (i : Int))
      + (if (j : Int) > (c : Int) then (j : Int) - (c : Int) else (c : Int) - (j : Int))
      ≤ (c : Int)
  · rw [if_pos hq]
    exact ⟨fun _ => hq, fun _ => rfl⟩
  · rw [if_neg hq]
    exact ⟨fun h0 => absurd h0 (by decide), fun h0 => absurd h0 hq⟩

/-- The cross of side `2 * c + 1` has `2 * (2 * c + 1) - 1` included cells. -/
theorem countOnes_crossOf (c : Nat) (mask : Grid) :
    countOnes (2 * c + 1) (2 * c + 1) (buildCrossMaskOf (2 * (c : Int) + 1) mask)
      = 2 * (2 * c + 1) - 1 := by
  have hrow : ∀ i : Nat, i < 2 * c + 1 →
      (List.range (2 * c + 1)).countP (fun (j : Nat) =>
        decide (buildCrossMaskOf (2 * (c : Int) + 1) mask (i : Int) (j : Int) = 1))
      = if i = c then 2 * c + 1 else 1 := by
    intro i hi
    by_cases hic : i = c
    · rw [if_pos hic]
      have hcount := countP_interval 0 (2 * c) (2 * c + 1)
      have hval : min (2 * c + 1) (2 * c + 1) - 0 = 2 * c + 1 := by omega
      rw [hval] at hcount
      refine Eq.trans (List.countP_congr ?_) hcount
      intro j hj
      have hj' : j < 2 * c + 1 := List.mem_range.mp hj
      simp only [decide_eq_true_eq]
      rw [buildCrossMaskOf_cell c mask i j hi hj']
      omega
    · rw [if_neg hic]
      have hcount := countP_interval c c (2 * c + 1)
      have hval : min (2 * c + 1) (c + 1) - c = 1 := by omega
      rw [hval] at hcount
      refine Eq.trans (List.countP_congr ?_) hcount
      intro j hj
      have hj' : j < 2 * c + 1 := List.mem_range.mp hj
      simp only [decide_eq_true_eq]
      rw [buildCrossMaskOf_cell c mask i j hi hj']
      omega
  unfold countOnes
  rw [List.map_congr_left (fun i hi => hrow i (List.mem_range.mp hi)),
    sum_one_special c (2 * c + 1) (by omega) (2 * c + 1), if_pos (by omega)]
  omega

/-- The diamond of side `2 * c + 1` has `2 * c ^ 2 + 2 * c + 1` included cells. -/
theorem countOnes_octaOf (c : Nat) (mask : Grid) :
    countOnes (2 * c + 1) (2 * c + 1) (buildOctaMaskOf (2 * (c : Int) + 1) mask)
      = 2 * c ^ 2 + 2 * c + 1 := by
  have hrow : ∀ i : Nat, i < 2 * c + 1 →
      (List.range (2 * c + 1)).countP (fun (j : Nat) =>
        decide (buildOctaMaskOf (2 * (c : Int) + 1) mask (i : Int) (j : Int) = 1))
      = 2 * (c - (if i ≤ c then c - i else i - c)) + 1 := by
    intro i hi
    have hd : (i ≤ c ∧ i + (if i ≤ c then c - i else i - c) = c) ∨
        (c < i ∧ i = c + (if i ≤ c then c - i else i - c)) := by
      split_ifs <;> omega
    have hw : (if i ≤ c then c - i else i - c) + (c - (if i ≤ c then c - i else i - c)) = c := by
      split_ifs <;> omega
    generalize (if i ≤ c then c - i else i - c) = d at hd hw
    generalize c - d = w at hw
    have hcount := countP_interval d (c + w) (2 * c + 1)
    have hval : min (2 * c + 1) (c + w + 1) - d = 2 * w + 1 := by omega
    rw [hval] at hcount
    refine Eq.trans (List.countP_congr ?_) hcount
    intro j hj
    have hj' : j < 2 * c + 1 := List.mem_range.mp hj
    simp only [decide_eq_true_eq]
    exact buildOctaMaskOf_cell c mask i j hi hj' d w hd hw
  unfold countOnes
  rw [List.map_congr_left (fun i hi => hrow i (List.mem_range.mp hi))]
  exact sum_diamond c

/-! ## Claims -/

/-- C1: postcondition of `applyMaskAt`.  For every overlay, every 7x7 mask and every
origin (an `int` pair), the overlay cell `(i, j)` of the board holds `1` after the call
if the mask cell `(i - originRow + 3, j - originCol + 3)` lies inside the mask and
equals `1`, and holds its old value otherwise. -/
theorem applyMaskAt_postcondition (overlay mask : Grid) (originRow originCol : Int)
    (hR : isInt32 originRow) (hC : isInt32 originCol) (i j : Int)
    (hi : 0 ≤ i ∧ i < 10) (hj : 0 ≤ j ∧ j < 10) :
    applyMaskAt overlay originRow originCol mask i j
      = if (0 ≤ i - originRow + 3 ∧ i - originRow + 3 ≤ 6) ∧
            (0 ≤ j - originCol + 3 ∧ j - originCol + 3 ≤ 6) ∧
            mask (i - originRow + 3) (j - originCol + 3) = 1
        then 1 else overlay i j := by
  rw [applyMaskAt_apply overlay originRow originCol mask hR hC i j]
  have e : Hit originRow originCol mask i j ↔
      ((0 ≤ i - originRow + 3 ∧ i - originRow + 3 ≤ 6) ∧
        (0 ≤ j - originCol + 3 ∧ j - originCol + 3 ≤ 6) ∧
        mask (i - originRow + 3) (j - originCol + 3) = 1) := by
    unfold Hit
    constructor
    · intro h
      exact h.2
    · intro h
      exact ⟨⟨hi.1, hi.2, hj.1, hj.2⟩, h⟩
  simp only [e]

/-- Instance of C1: a mask with the single included cell `(0, 6)` stamped at the origin
`(4, 2)` marks the board cell `(1, 5)`. -/
theorem applyMaskAt_postcondition_witness :
    isInt32 4 ∧ isInt32 2 ∧ ((0 : Int) ≤ 1 ∧ (1 : Int) < 10) ∧ ((0 : Int) ≤ 5 ∧ (5 : Int) < 10) ∧
    applyMaskAt (fun _ _ => 0) 4 2 (fun r c => if r = 0 ∧ c = 6 then 1 else 0) 1 5
      = if (0 ≤ (1 : Int) - 4 + 3 ∧ (1 : Int) - 4 + 3 ≤ 6) ∧
            (0 ≤ (5 : Int) - 2 + 3 ∧ (5 : Int) - 2 + 3 ≤ 6) ∧
            (fun r c : Int => if r = 0 ∧ c = 6 then (1 : Int) else 0) (1 - 4 + 3) (5 - 2 + 3) = 1
        then 1 else (fun _ _ : Int => (0 : Int)) 1 5 :=
  ⟨by decide, by decide, by decide, by decide,
    applyMaskAt_postcondition (fun _ _ => 0) (fun r c => if r = 0 ∧ c = 6 then 1 else 0) 4 2
      (by decide) (by decide) 1 5 (by decide) (by decide)⟩

/-- C2: inclusion set of `buildConeMask`.  Whatever the array held before, the cell
`(r, c)` of the mask, `0 ≤ r, c ≤ 6`, is `1` if `3 - r ≤ c ≤ 3 + r` and `0` otherwise. -/
theorem buildConeMask_inclusion (mask : Grid) (r c : Int)
    (hr : 0 ≤ r ∧ r ≤ 6) (hc : 0 ≤ c ∧ c ≤ 6) :
    buildConeMask mask r c = if 3 - r ≤ c ∧ c ≤ 3 + r then 1 else 0 := by
  rw [buildConeMask_apply, if_pos ⟨⟨hr.1, by omega⟩, hc.1, by omega⟩]

/-- Instance of C2: row `2`, column `1` of the cone mask built over an array of nines. -/
theorem buildConeMask_inclusion_witness :
    ((0 : Int) ≤ 2 ∧ (2 : Int) ≤ 6) ∧ ((0 : Int) ≤ 1 ∧ (1 : Int) ≤ 6) ∧
    buildConeMask (fun _ _ => 9) 2 1 = if (3 : Int) - 2 ≤ 1 ∧ (1 : Int) ≤ 3 + 2 then 1 else 0 :=
  ⟨by decide, by decide, buildConeMask_inclusion (fun _ _ => 9) 2 1 (by decide) (by decide)⟩

/-- C3: inclusion set of `buildOctaMask`.  Whatever the array held before, the cell
`(r, c)` of the mask, `0 ≤ r, c ≤ 6`, is `1` if `|r - 3| + |c - 3| ≤ 3` and `0`
otherwise. -/
theorem buildOctaMask_inclusion (mask : Grid) (r c : Int)
    (hr : 0 ≤ r ∧ r ≤ 6) (hc : 0 ≤ c ∧ c ≤ 6) :
    buildOctaMask mask r c = if |r - 3| + |c - 3| ≤ 3 then 1 else 0 := by
  rw [buildOctaMask_apply, if_pos ⟨⟨hr.1, by omega⟩, hc.1, by omega⟩]

/-- Instance of C3: row `5`, column `1` of the diamond mask built over an array of
nines lies outside the diamond. -/
theorem buildOctaMask_inclusion_witness :
    ((0 : Int) ≤ 5 ∧ (5 : Int) ≤ 6) ∧ ((0 : Int) ≤ 1 ∧ (1 : Int) ≤ 6) ∧
    buildOctaMask (fun _ _ => 9) 5 1 = if |(5 : Int) - 3| + |(1 : Int) - 3| ≤ 3 then 1 else 0 :=
  ⟨by decide, by decide, buildOctaMask_inclusion (fun _ _ => 9) 5 1 (by decide) (by decide)⟩

/-- C4: inclusion set of `buildCrossMask`.  Whatever the array held before, the cell
`(r, c)` of the mask, `0 ≤ r, c ≤ 6`, is `1` if `r = 3` or `c = 3` and `0` otherwise. -/
theorem buildCrossMask_inclusion (mask : Grid) (r c : Int)
    (hr : 0 ≤ r ∧ r ≤ 6) (hc : 0 ≤ c ∧ c ≤ 6) :
    buildCrossMask mask r c = if r = 3 ∨ c = 3 then 1 else 0 := by
  rw [buildCrossMask_apply, if_pos ⟨⟨hr.1, by omega⟩, hc.1, by omega⟩]

/-- Instance of C4: row `3`, column `6` of the cross mask built over an array of nines. -/
theorem buildCrossMask_inclusion_witness :
    ((0 : Int) ≤ 3 ∧ (3 : Int) ≤ 6) ∧ ((0 : Int) ≤ 6 ∧ (6 : Int) ≤ 6) ∧
    buildCrossMask (fun _ _ => 9) 3 6 = if (3 : Int) = 3 ∨ (6 : Int) = 3 then 1 else 0 :=
  ⟨by decide, by decide, buildCrossMask_inclusion (fun _ _ => 9) 3 6 (by decide) (by decide)⟩

/-- C5: composition precedence.  For every board and overlay, the value that
`printBoardWithOverlay` prints for the cell `(i, j)` is `AOE = 5` when
`overlay[i][j] == 1` and `board[i][j]` otherwise; so a cell that holds a ship (`3`) and
is affected is printed as `5`. -/
theorem printBoardWithOverlay_precedence (board overlay : Grid) (i j : Nat)
    (hi : i < 10) (hj : j < 10) :
    displayedValue (printBoardWithOverlay board overlay) i j
        = some (if overlay i j = 1 then AOE else board i j) ∧
    (board i j = SHIP → overlay i j = 1 →
      displayedValue (printBoardWithOverlay board overlay) i j = some 5) := by
  have key : displayedValue (printBoardWithOverlay board overlay) i j
      = some (if overlay i j = 1 then AOE else board i j) := by
    rw [printBoardWithOverlay_eq]
    unfold displayedValue AOE
    interval_cases i <;> interval_cases j <;> rfl
  refine ⟨key, ?_⟩
  intro _ ho
  rw [key, if_pos ho]
  rfl

/-- Instance of C5: a ship cell under an affected overlay cell is printed as `5`. -/
theorem printBoardWithOverlay_precedence_witness :
    (2 < 10 ∧ 7 < 10) ∧
    (displayedValue (printBoardWithOverlay (fun _ _ => 3) (fun _ _ => 1)) 2 7
        = some (if (fun _ _ : Int => (1 : Int)) 2 7 = 1 then AOE
            else (fun _ _ : Int => (3 : Int)) 2 7) ∧
    ((fun _ _ : Int => (3 : Int)) 2 7 = SHIP → (fun _ _ : Int => (1 : Int)) 2 7 = 1 →
      displayedValue (printBoardWithOverlay (fun _ _ => 3) (fun _ _ => 1)) 2 7 = some 5)) :=
  ⟨by decide,
    printBoardWithOverlay_precedence (fun _ _ => 3) (fun _ _ => 1) 2 7 (by decide) (by decide)⟩

/-- C6: order-independence of stamping.  For every overlay, every two masks and every
two origins, applying the first mask and then the second gives the same overlay as
applying the second and then the first. -/
theorem applyMaskAt_order_independent (overlay maskA maskB : Grid)
    (pRow pCol qRow qCol : Int)
    (hpR : isInt32 pRow) (hpC : isInt32 pCol) (hqR : isInt32 qRow) (hqC : isInt32 qCol) :
    applyMaskAt (applyMaskAt overlay pRow pCol maskA) qRow qCol maskB
      = applyMaskAt (applyMaskAt overlay qRow qCol maskB) pRow pCol maskA := by
  funext i j
  rw [applyMaskAt_apply _ qRow qCol maskB hqR hqC, applyMaskAt_apply _ pRow pCol maskA hpR hpC,
    applyMaskAt_apply _ pRow pCol maskA hpR hpC, applyMaskAt_apply _ qRow qCol maskB hqR hqC]
  split_ifs <;> rfl

/-- Instance of C6: a cone at `(1, 3)` and a cross at `(5, 5)` in both orders. -/
theorem applyMaskAt_order_independent_witness :
    (isInt32 1 ∧ isInt32 3 ∧ isInt32 5 ∧ isInt32 5) ∧
    applyMaskAt (applyMaskAt (fun _ _ => 0) 1 3 (buildConeMask (fun _ _ => 0))) 5 5
        (buildCrossMask (fun _ _ => 0))
      = applyMaskAt (applyMaskAt (fun _ _ => 0) 5 5 (buildCrossMask (fun _ _ => 0))) 1 3
        (buildConeMask (fun _ _ => 0)) :=
  ⟨by decide,
    applyMaskAt_order_independent (fun _ _ => 0) (buildConeMask (fun _ _ => 0))
      (buildCrossMask (fun _ _ => 0)) 1 3 5 5 (by decide) (by decide) (by decide) (by decide)⟩

/-- C7: idempotence of stamping.  For every overlay, mask and origin, applying the same
mask at the same origin twice gives the same overlay as applying it once. -/
theorem applyMaskAt_idempotent (overlay mask : Grid) (originRow originCol : Int)
    (hR : isInt32 originRow) (hC : isInt32 originCol) :
    applyMaskAt (applyMaskAt overlay originRow originCol mask) originRow originCol mask
      = applyMaskAt overlay originRow originCol mask := by
  funext i j
  rw [applyMaskAt_apply _ originRow originCol mask hR hC,
    applyMaskAt_apply _ originRow originCol mask hR hC]
  split_ifs <;> rfl

/-- Instance of C7: the diamond stamped twice at `(7, 2)`. -/
theorem applyMaskAt_idempotent_witness :
    (isInt32 7 ∧ isInt32 2) ∧
    applyMaskAt (applyMaskAt (fun _ _ => 0) 7 2 (buildOctaMask (fun _ _ => 0))) 7 2
        (buildOctaMask (fun _ _ => 0))
      = applyMaskAt (fun _ _ => 0) 7 2 (buildOctaMask (fun _ _ => 0)) :=
  ⟨by decide,
    applyMaskAt_idempotent (fun _ _ => 0) (buildOctaMask (fun _ _ => 0)) 7 2
      (by decide) (by decide)⟩

/-- C8: monotonic accumulation.  A cell that is affected (`1`) before `applyMaskAt` is
affected after it; a cell that is affected before a sequence of calls is affected after
the sequence; and after a sequence of calls on a cleared overlay a board cell is
affected exactly when one of the calls, made alone on the cleared overlay, affects it. -/
theorem applyMaskAt_monotonic (overlay mask : Grid) (originRow originCol : Int)
    (hR : isInt32 originRow) (hC : isInt32 originCol)
    (stamps : List Stamp) (hs : ∀ s ∈ stamps, isInt32 s.originRow ∧ isInt32 s.originCol) :
    (∀ i j, overlay i j = 1 → applyMaskAt overlay originRow originCol mask i j = 1) ∧
    (∀ i j, overlay i j = 1 → stampAll overlay stamps i j = 1) ∧
    (∀ i j, (0 ≤ i ∧ i < 10) → (0 ≤ j ∧ j < 10) →
      (stampAll (clearIntGrid N N overlay) stamps i j = 1 ↔
        ∃ s ∈ stamps,
          applyMaskAt (clearIntGrid N N overlay) s.originRow s.originCol s.mask i j = 1)) := by
  refine ⟨?_, ?_, ?_⟩
  · intro i j h
    rw [applyMaskAt_apply overlay originRow originCol mask hR hC i j]
    split_ifs
    · rfl
    · exact h
  · intro i j h
    exact (stampAll_apply stamps hs overlay i j).mpr (Or.inl h)
  · intro i j hi hj
    have hz : clearIntGrid N N overlay i j = 0 := by
      rw [clearIntGrid_apply, if_pos]
      exact ⟨hi, hj⟩
    rw [stampAll_apply stamps hs, hz]
    constructor
    · rintro (h | ⟨s, hs1, hs2⟩)
      · exact absurd h (by decide)
      · refine ⟨s, hs1, ?_⟩
        rw [applyMaskAt_apply _ s.originRow s.originCol s.mask (hs s hs1).1 (hs s hs1).2,
          if_pos hs2]
    · rintro ⟨s, hs1, hs2⟩
      right
      refine ⟨s, hs1, ?_⟩
      rw [applyMaskAt_apply _ s.originRow s.originCol s.mask (hs s hs1).1 (hs s hs1).2, hz]
        at hs2
      by_contra hn
      rw [if_neg hn] at hs2
      exact absurd hs2 (by decide)

/-- Instance of C8: the three stamping calls of `main`. -/
theorem applyMaskAt_monotonic_witness :
    (isInt32 5 ∧ isInt32 5) ∧
    (∀ s ∈ [Stamp.mk 1 3 (buildConeMask (fun _ _ => 0)),
        Stamp.mk 5 5 (buildCrossMask (fun _ _ => 0)),
        Stamp.mk 7 2 (buildOctaMask (fun _ _ => 0))],
      isInt32 s.originRow ∧ isInt32 s.originCol) ∧
    (∀ i j, (fun _ _ : Int => (1 : Int)) i j = 1 →
      applyMaskAt (fun _ _ => 1) 5 5 (buildCrossMask (fun _ _ => 0)) i j = 1) :=
  ⟨by decide, by simp [isInt32],
    (applyMaskAt_monotonic (fun _ _ => 1) (buildCrossMask (fun _ _ => 0)) 5 5
      (by decide) (by decide)
      [Stamp.mk 1 3 (buildConeMask (fun _ _ => 0)),
        Stamp.mk 5 5 (buildCrossMask (fun _ _ => 0)),
        Stamp.mk 7 2 (buildOctaMask (fun _ _ => 0))]
      (by simp [isInt32])).1⟩

/-- C9: stamping never fails and never writes out of range.  `applyMaskAt` is a total
function.  For every origin (an `int` pair) and every mask: the overlay computed with
the log of writes is the overlay of `applyMaskAt`; every logged write is at an index
`(br, bc)` with `0 ≤ br < 10` and `0 ≤ bc < 10`; every cell outside the board keeps its
value; and when the whole 7x7 window lies outside the board (`originRow ≤ -4`,
`originRow ≥ 13`, `originCol ≤ -4` or `originCol ≥ 13`) nothing is written and the
overlay is unchanged. -/
theorem applyMaskAt_in_range (overlay mask : Grid) (originRow originCol : Int)
    (hR : isInt32 originRow) (hC : isInt32 originCol) :
    (applyMaskAtLogged overlay originRow originCol mask).1
        = applyMaskAt overlay originRow originCol mask ∧
    (∀ w ∈ (applyMaskAtLogged overlay originRow originCol mask).2,
      (0 ≤ w.1 ∧ w.1 < 10) ∧ (0 ≤ w.2 ∧ w.2 < 10)) ∧
    (∀ i j, ¬ ((0 ≤ i ∧ i < 10) ∧ (0 ≤ j ∧ j < 10)) →
      applyMaskAt overlay originRow originCol mask i j = overlay i j) ∧
    (originRow ≤ -4 ∨ originRow ≥ 13 ∨ originCol ≤ -4 ∨ originCol ≥ 13 →
      (applyMaskAtLogged overlay originRow originCol mask).2 = [] ∧
      applyMaskAt overlay originRow originCol mask = overlay) := by
  refine ⟨applyMaskAtLogged_fst overlay originRow originCol mask, ?_, ?_, ?_⟩
  · refine applyMaskAtLogged_log _ overlay originRow originCol mask ?_
    intro r c _ _ _ _ _ hb
    unfold N at hb
    exact ⟨⟨hb.1, hb.2.1⟩, hb.2.2.1, hb.2.2.2⟩
  · intro i j hout
    rw [applyMaskAt_apply overlay originRow originCol mask hR hC i j, if_neg]
    intro hh
    apply hout
    unfold Hit at hh
    exact ⟨⟨hh.1.1, hh.1.2.1⟩, hh.1.2.2.1, hh.1.2.2.2⟩
  · intro hw
    constructor
    · have hnone := applyMaskAtLogged_log (fun _ => False) overlay originRow originCol mask
        (by
          intro r c hr0 hr1 hc0 hc1 _ hb
          unfold isInt32 at hR hC
          rw [mask_mid] at hb
          unfold addInt wrapInt32 N at hb
          unfold MASK at hr1 hc1
          omega)
      exact List.eq_nil_iff_forall_not_mem.mpr (fun w hw => hnone w hw)
    · funext i j
      rw [applyMaskAt_apply overlay originRow originCol mask hR hC i j, if_neg]
      intro hh
      unfold Hit at hh
      omega

/-- Instance of C9: the cross stamped at the origin `(20, -7)`, whose window misses the
board. -/
theorem applyMaskAt_in_range_witness :
    (isInt32 20 ∧ isInt32 (-7)) ∧
    (applyMaskAtLogged (fun _ _ => 0) 20 (-7) (buildCrossMask (fun _ _ => 0))).2 = [] :=
  ⟨by decide,
    ((applyMaskAt_in_range (fun _ _ => 0) (buildCrossMask (fun _ _ => 0)) 20 (-7)
      (by decide) (by decide)).2.2.2 (by decide)).1⟩

/-- C10: stamping fully inside the board preserves the cell count.  For every 7x7 mask,
`applyMaskAt` at the origin `(5, 5)` on an overlay of the board without affected cells
leaves as many affected overlay cells as the mask has included cells. -/
theorem applyMaskAt_centre_count (overlay mask : Grid)
    (h0 : ∀ i j : Int, 0 ≤ i ∧ i < 10 → 0 ≤ j ∧ j < 10 → overlay i j ≠ 1) :
    countOnes 10 10 (applyMaskAt overlay 5 5 mask) = countOnes 7 7 mask :=
  countOnes_stamp_centre overlay mask h0

/-- Instance of C10: the cone mask stamped at `(5, 5)` on the cleared overlay. -/
theorem applyMaskAt_centre_count_witness :
    (∀ i j : Int, 0 ≤ i ∧ i < 10 → 0 ≤ j ∧ j < 10 →
      clearIntGrid N N (fun _ _ => 1) i j ≠ 1) ∧
    countOnes 10 10 (applyMaskAt (clearIntGrid N N (fun _ _ => 1)) 5 5
        (buildConeMask (fun _ _ => 0)))
      = countOnes 7 7 (buildConeMask (fun _ _ => 0)) :=
  have hclear : ∀ i j : Int, 0 ≤ i ∧ i < 10 → 0 ≤ j ∧ j < 10 →
      clearIntGrid N N (fun _ _ => 1) i j ≠ 1 := by
    intro i j hi hj
    rw [clearIntGrid_apply, if_pos ⟨hi, hj⟩]
    decide
  ⟨hclear,
    applyMaskAt_centre_count (clearIntGrid N N (fun _ _ => 1)) (buildConeMask (fun _ _ => 0))
      hclear⟩

/-- C11: corner stamping clips.  For each of the masks of `buildConeMask`,
`buildCrossMask` and `buildOctaMask`, `applyMaskAt` at the origin `(0, 0)` on an overlay
of the board without affected cells leaves fewer affected cells (16, 7 and 10) than the
mask has included cells (37, 13 and 25).  The call completes: `applyMaskAt` is a total
function. -/
theorem applyMaskAt_corner_clips (overlay cone cross octa : Grid)
    (h0 : ∀ i j : Int, 0 ≤ i ∧ i < 10 → 0 ≤ j ∧ j < 10 → overlay i j ≠ 1) :
    (countOnes 10 10 (applyMaskAt overlay 0 0 (buildConeMask cone)) = 16 ∧
      countOnes 7 7 (buildConeMask cone) = 37 ∧
      countOnes 10 10 (applyMaskAt overlay 0 0 (buildConeMask cone))
        < countOnes 7 7 (buildConeMask cone)) ∧
    (countOnes 10 10 (applyMaskAt overlay 0 0 (buildCrossMask cross)) = 7 ∧
      countOnes 7 7 (buildCrossMask cross) = 13 ∧
      countOnes 10 10 (applyMaskAt overlay 0 0 (buildCrossMask cross))
        < countOnes 7 7 (buildCrossMask cross)) ∧
    (countOnes 10 10 (applyMaskAt overlay 0 0 (buildOctaMask octa)) = 10 ∧
      countOnes 7 7 (buildOctaMask octa) = 25 ∧
      countOnes 10 10 (applyMaskAt overlay 0 0 (buildOctaMask octa))
        < countOnes 7 7 (buildOctaMask octa)) := by
  have a1 : countOnes 10 10 (applyMaskAt overlay 0 0 (buildConeMask cone)) = 16 := by
    rw [countOnes_stamp overlay (buildConeMask cone) coneShape 0 0 (by decide) (by decide) h0
      (buildConeMask_eq_shape cone)]
    exact countOnes_corner_cone
  have m1 : countOnes 7 7 (buildConeMask cone) = 37 := by
    rw [countOnes_mask (buildConeMask cone) coneShape (buildConeMask_eq_shape cone)]
    exact countOnes_coneShape
  have a2 : countOnes 10 10 (applyMaskAt overlay 0 0 (buildCrossMask cross)) = 7 := by
    rw [countOnes_stamp overlay (buildCrossMask cross) crossShape 0 0 (by decide) (by decide) h0
      (buildCrossMask_eq_shape cross)]
    exact countOnes_corner_cross
  have m2 : countOnes 7 7 (buildCrossMask cross) = 13 := by
    rw [countOnes_mask (buildCrossMask cross) crossShape (buildCrossMask_eq_shape cross)]
    exact countOnes_crossShape
  have a3 : countOnes 10 10 (applyMaskAt overlay 0 0 (buildOctaMask octa)) = 10 := by
    rw [countOnes_stamp overlay (buildOctaMask octa) octaShape 0 0 (by decide) (by decide) h0
      (buildOctaMask_eq_shape octa)]
    exact countOnes_corner_octa
  have m3 : countOnes 7 7 (buildOctaMask octa) = 25 := by
    rw [countOnes_mask (buildOctaMask octa) octaShape (buildOctaMask_eq_shape octa)]
    exact countOnes_octaShape
  refine ⟨⟨a1, m1, ?_⟩, ⟨a2, m2, ?_⟩, ⟨a3, m3, ?_⟩⟩
  · rw [a1, m1]
    decide
  · rw [a2, m2]
    decide
  · rw [a3, m3]
    decide

/-- Instance of C11: the three masks stamped at `(0, 0)` on the all-zero overlay. -/
theorem applyMaskAt_corner_clips_witness :
    (∀ i j : Int, 0 ≤ i ∧ i < 10 → 0 ≤ j ∧ j < 10 → (fun _ _ : Int => (0 : Int)) i j ≠ 1) ∧
    countOnes 10 10 (applyMaskAt (fun _ _ => 0) 0 0 (buildConeMask (fun _ _ => 0)))
      < countOnes 7 7 (buildConeMask (fun _ _ => 0)) :=
  have hzero : ∀ i j : Int, 0 ≤ i ∧ i < 10 → 0 ≤ j ∧ j < 10 →
      (fun _ _ : Int => (0 : Int)) i j ≠ 1 := by
    intro i j _ _
    show (0 : Int) ≠ 1
    decide
  ⟨hzero,
    (applyMaskAt_corner_clips (fun _ _ => 0) (fun _ _ => 0) (fun _ _ => 0) (fun _ _ => 0)
      hzero).1.2.2⟩

/-- C12, as stated, fails: with the single ship at `(2, 2)`, a cleared overlay and the
cross stamped at `(2, 2)`, the cell `(2, 6)` of row 2 is printed as `0`, not as `5`,
because the arms of the 7x7 cross end three cells from the origin. -/
theorem cross_at_2_2_arm_ends :
    displayedValue
        (printBoardWithOverlay (setCell (clearIntGrid N N (fun _ _ => 0)) 2 2 SHIP)
          (applyMaskAt (clearIntGrid N N (fun _ _ => 0)) 2 2 (buildCrossMask (fun _ _ => 0))))
        2 6 = some 0 ∧
    ¬ (∀ i j : Nat, i < 10 → j < 10 → (i = 2 ∨ j = 2) →
      displayedValue
        (printBoardWithOverlay (setCell (clearIntGrid N N (fun _ _ => 0)) 2 2 SHIP)
          (applyMaskAt (clearIntGrid N N (fun _ _ => 0)) 2 2 (buildCrossMask (fun _ _ => 0))))
        i j = some 5) := by
  have h : displayedValue
      (printBoardWithOverlay (setCell (clearIntGrid N N (fun _ _ => 0)) 2 2 SHIP)
        (applyMaskAt (clearIntGrid N N (fun _ _ => 0)) 2 2 (buildCrossMask (fun _ _ => 0))))
      2 6 = some 0 := by
    have hmiss : ¬ Hit 2 2 (buildCrossMask (fun _ _ => 0)) 2 6 := by
      rw [hit_cross]
      omega
    rw [displayedValue_print _ _ 2 6 (by decide) (by decide)]
    simp only [Nat.cast_ofNat]
    have hz : clearIntGrid N N (fun _ _ => 0) 2 6 = 0 := by
      rw [clearIntGrid_apply]
      rfl
    rw [applyMaskAt_apply _ 2 2 _ (by decide) (by decide), if_neg hmiss, hz,
      if_neg (by decide)]
    unfold setCell
    rw [if_neg (by decide), hz]
  refine ⟨h, ?_⟩
  intro hall
  have h5 := hall 2 6 (by decide) (by decide) (Or.inl rfl)
  rw [h] at h5
  exact absurd h5 (by decide)

/-- C12, amended: with a board whose only occupied cell is `(2, 2)`, a cleared overlay
and the cross mask stamped at `(2, 2)`, the composition prints `5` at `(2, 2)`, at the
cells of row 2 in columns `0..5` and at the cells of column 2 in rows `0..5`, and `0` at
every other cell of the board. -/
theorem cross_at_2_2_display (board overlay mask : Grid)
    (hb : ∀ i j : Int, 0 ≤ i ∧ i < 10 → 0 ≤ j ∧ j < 10 →
      board i j = if i = 2 ∧ j = 2 then 3 else 0)
    (i j : Nat) (hi : i < 10) (hj : j < 10) :
    displayedValue
        (printBoardWithOverlay board
          (applyMaskAt (clearIntGrid N N overlay) 2 2 (buildCrossMask mask))) i j
      = some (if (i = 2 ∧ j ≤ 5) ∨ (j = 2 ∧ i ≤ 5) then 5 else 0) := by
  rw [displayedValue_print _ _ i j hi hj,
    applyMaskAt_apply _ 2 2 _ (by decide) (by decide) (i : Int) (j : Int)]
  have hz : clearIntGrid N N overlay (i : Int) (j : Int) = 0 := by
    rw [clearIntGrid_apply, if_pos]
    unfold N
    omega
  have hh := hit_cross 2 2 mask (i : Int) (j : Int)
  have hbij := hb (i : Int) (j : Int) (by omega) (by omega)
  by_cases hq : (i = 2 ∧ j ≤ 5) ∨ (j = 2 ∧ i ≤ 5)
  · have hhit : Hit 2 2 (buildCrossMask mask) (i : Int) (j : Int) := by
      rw [hh]
      omega
    simp only [if_pos hhit, if_pos hq, if_true]
  · have hmiss : ¬ Hit 2 2 (buildCrossMask mask) (i : Int) (j : Int) := by
      rw [hh]
      omega
    have hne : ¬ ((i : Int) = 2 ∧ (j : Int) = 2) := by omega
    simp only [if_neg hmiss, if_neg hq, hz, hbij, if_neg hne]
    rfl

/-- Instance of C12, amended: the cell `(2, 6)` of the board with the single ship. -/
theorem cross_at_2_2_display_witness :
    (∀ i j : Int, 0 ≤ i ∧ i < 10 → 0 ≤ j ∧ j < 10 →
      (fun a b : Int => if a = 2 ∧ b = 2 then (3 : Int) else 0) i j
        = if i = 2 ∧ j = 2 then 3 else 0) ∧
    displayedValue
        (printBoardWithOverlay (fun a b => if a = 2 ∧ b = 2 then 3 else 0)
          (applyMaskAt (clearIntGrid N N (fun _ _ => 1)) 2 2 (buildCrossMask (fun _ _ => 1))))
        2 6
      = some (if (2 = 2 ∧ 6 ≤ 5) ∨ (6 = 2 ∧ 2 ≤ 5) then 5 else 0) :=
  ⟨fun _ _ _ _ => rfl,
    cross_at_2_2_display (fun a b => if a = 2 ∧ b = 2 then 3 else 0) (fun _ _ => 1)
      (fun _ _ => 1) (fun _ _ _ _ => rfl) 2 6 (by decide) (by decide)⟩

/-- C17: displayed values stay in `0`, `3`, `5`.  For every board whose cells are all
`0` or `3` and every overlay, each value printed by `printBoardWithOverlay` is `0`, `3`
or `5`; and each value printed by `main` is `0`, `3` or `5`, whatever its local arrays
held at first. -/
theorem displayed_values_in_range (board overlay : Grid)
    (hb : ∀ i j : Int, 0 ≤ i ∧ i < 10 → 0 ≤ j ∧ j < 10 → board i j = 0 ∨ board i j = 3)
    (board0 overlay0 cone0 cross0 octa0 : Grid)
    (i j : Nat) (hi : i < 10) (hj : j < 10) :
    (∃ v, displayedValue (printBoardWithOverlay board overlay) i j = some v ∧
      (v = 0 ∨ v = 3 ∨ v = 5)) ∧
    (∃ v, displayedValue (main board0 overlay0 cone0 cross0 octa0).1 i j = some v ∧
      (v = 0 ∨ v = 3 ∨ v = 5)) := by
  have gen : ∀ b o : Grid,
      (∀ i j : Int, 0 ≤ i ∧ i < 10 → 0 ≤ j ∧ j < 10 → b i j = 0 ∨ b i j = 3) →
      ∃ v, displayedValue (printBoardWithOverlay b o) i j = some v ∧
        (v = 0 ∨ v = 3 ∨ v = 5) := by
    intro b o hbo
    rw [displayedValue_print b o i j hi hj]
    refine ⟨_, rfl, ?_⟩
    split_ifs
    · exact Or.inr (Or.inr rfl)
    · rcases hbo (i : Int) (j : Int) (by omega) (by omega) with h | h
      · exact Or.inl h
      · exact Or.inr (Or.inl h)
  refine ⟨gen board overlay hb, ?_⟩
  have e : (main board0 overlay0 cone0 cross0 octa0).1
      = printBoardWithOverlay (placeExampleShips (clearIntGrid N N board0))
          (applyMaskAt (applyMaskAt (applyMaskAt (clearIntGrid N N overlay0) 1 3
            (buildConeMask cone0)) 5 5 (buildCrossMask cross0)) 7 2 (buildOctaMask octa0)) :=
    rfl
  rw [e]
  apply gen
  intro a b ha hb'
  rw [placeExampleShips_apply]
  by_cases hq : (a = 2 ∧ 1 ≤ b ∧ b ≤ 3) ∨ (5 ≤ a ∧ a ≤ 8 ∧ b = 7) ∨ (a = 8 ∧ b = 2)
  · rw [if_pos hq]
    exact Or.inr rfl
  · rw [if_neg hq, clearIntGrid_apply]
    left
    rw [if_pos]
    exact ⟨ha, hb'⟩

/-- Instance of C17: the cell `(6, 7)` of a board of ships under an empty overlay and of
the run of `main`. -/
theorem displayed_values_in_range_witness :
    (∀ i j : Int, 0 ≤ i ∧ i < 10 → 0 ≤ j ∧ j < 10 →
      (fun _ _ : Int => (3 : Int)) i j = 0 ∨ (fun _ _ : Int => (3 : Int)) i j = 3) ∧
    (∃ v, displayedValue (printBoardWithOverlay (fun _ _ => 3) (fun _ _ => 0)) 6 7 = some v ∧
      (v = 0 ∨ v = 3 ∨ v = 5)) :=
  ⟨fun _ _ _ _ => Or.inr rfl,
    (displayed_values_in_range (fun _ _ => 3) (fun _ _ => 0) (fun _ _ _ _ => Or.inr rfl)
      (fun _ _ => 0) (fun _ _ => 0) (fun _ _ => 0) (fun _ _ => 0) (fun _ _ => 0)
      6 7 (by decide) (by decide)).1⟩

/-- C18: end-to-end without stamping.  Composing a board whose only occupied cell is
`(2, 2)` with a cleared overlay on which no mask was applied prints `3` at row 2,
column 2 and `0` at every other cell of the board. -/
theorem single_ship_display (board overlay : Grid)
    (hb : ∀ i j : Int, 0 ≤ i ∧ i < 10 → 0 ≤ j ∧ j < 10 →
      board i j = if i = 2 ∧ j = 2 then 3 else 0)
    (i j : Nat) (hi : i < 10) (hj : j < 10) :
    displayedValue (printBoardWithOverlay board (clearIntGrid N N overlay)) i j
      = some (if i = 2 ∧ j = 2 then 3 else 0) := by
  rw [displayedValue_print _ _ i j hi hj]
  have hz : clearIntGrid N N overlay (i : Int) (j : Int) = 0 := by
    rw [clearIntGrid_apply, if_pos]
    unfold N
    omega
  rw [hz, if_neg (by decide), hb (i : Int) (j : Int) (by omega) (by omega)]
  by_cases hq : i = 2 ∧ j = 2
  · have hq' : (i : Int) = 2 ∧ (j : Int) = 2 := by omega
    rw [if_pos hq, if_pos hq']
  · have hq' : ¬ ((i : Int) = 2 ∧ (j : Int) = 2) := by omega
    rw [if_neg hq, if_neg hq']

/-- Instance of C18: the cell `(2, 2)` of the board made by clearing an array and
placing one ship. -/
theorem single_ship_display_witness :
    (∀ i j : Int, 0 ≤ i ∧ i < 10 → 0 ≤ j ∧ j < 10 →
      setCell (clearIntGrid N N (fun _ _ => 9)) 2 2 SHIP i j
        = if i = 2 ∧ j = 2 then 3 else 0) ∧
    displayedValue
        (printBoardWithOverlay (setCell (clearIntGrid N N (fun _ _ => 9)) 2 2 SHIP)
          (clearIntGrid N N (fun _ _ => 9))) 2 2
      = some (if 2 = 2 ∧ 2 = 2 then 3 else 0) :=
  have hboard : ∀ i j : Int, 0 ≤ i ∧ i < 10 → 0 ≤ j ∧ j < 10 →
      setCell (clearIntGrid N N (fun _ _ => 9)) 2 2 SHIP i j
        = if i = 2 ∧ j = 2 then 3 else 0 := by
    intro i j hi hj
    have hz : clearIntGrid N N (fun _ _ => 9) i j = 0 := by
      rw [clearIntGrid_apply, if_pos]
      exact ⟨hi, hj⟩
    unfold setCell
    rw [hz]
    rfl
  ⟨hboard,
    single_ship_display (setCell (clearIntGrid N N (fun _ _ => 9)) 2 2 SHIP) (fun _ _ => 9)
      hboard 2 2 (by decide) (by decide)⟩

/-- C13: diamond cell count.  The mask built by `buildOctaMask` has
`2 * center ^ 2 + 2 * center + 1` included cells for `center = MASK / 2 = 3`, that is
25 cells, whatever the array held before.  The same statements run with any odd side
`M = 2 * c + 1` in place of `MASK` (so `center = M / 2 = c`) build a mask with
`2 * c ^ 2 + 2 * c + 1` included cells. -/
theorem buildOctaMask_count (mask : Grid) (c : Nat) :
    (((countOnes 7 7 (buildOctaMask mask) : Nat) : Int)
        = 2 * (MASK / 2) ^ 2 + 2 * (MASK / 2) + 1 ∧
      countOnes 7 7 (buildOctaMask mask) = 25) ∧
    (buildOctaMask mask = buildOctaMaskOf MASK mask ∧
      (2 * (c : Int) + 1) / 2 = (c : Int) ∧
      countOnes (2 * c + 1) (2 * c + 1) (buildOctaMaskOf (2 * (c : Int) + 1) mask)
        = 2 * c ^ 2 + 2 * c + 1) := by
  have h : countOnes 7 7 (buildOctaMask mask) = 25 := by
    rw [countOnes_mask (buildOctaMask mask) octaShape (buildOctaMask_eq_shape mask)]
    exact countOnes_octaShape
  refine ⟨⟨?_, h⟩, rfl, odd_half c, countOnes_octaOf c mask⟩
  rw [h, mask_mid]
  rfl

/-- C14: cross cell count.  The mask built by `buildCrossMask` has `2 * MASK - 1`
included cells, that is 13 cells, whatever the array held before.  The same statements
run with any odd side `M = 2 * c + 1` in place of `MASK` build a mask with `2 * M - 1`
included cells. -/
theorem buildCrossMask_count (mask : Grid) (c : Nat) :
    (((countOnes 7 7 (buildCrossMask mask) : Nat) : Int) = 2 * MASK - 1 ∧
      countOnes 7 7 (buildCrossMask mask) = 13) ∧
    (buildCrossMask mask = buildCrossMaskOf MASK mask ∧
      countOnes (2 * c + 1) (2 * c + 1) (buildCrossMaskOf (2 * (c : Int) + 1) mask)
        = 2 * (2 * c + 1) - 1) := by
  have h : countOnes 7 7 (buildCrossMask mask) = 13 := by
    rw [countOnes_mask (buildCrossMask mask) crossShape (buildCrossMask_eq_shape mask)]
    exact countOnes_crossShape
  refine ⟨⟨?_, h⟩, rfl, countOnes_crossOf c mask⟩
  rw [h]
  rfl

/-- C15: cone cell counts.  In the mask built by `buildConeMask`, row 0 has one included
cell, at column 3; row 6 has seven included cells, the columns 0 to 6; the counts of
rows 0 to 6 are 1, 3, 5, 7, 7, 7, 7; and the mask has 37 included cells. -/
theorem buildConeMask_counts (mask : Grid) :
    (rowOnes 7 (buildConeMask mask) 0 = 1 ∧
      ∀ c : Int, 0 ≤ c ∧ c ≤ 6 → (buildConeMask mask 0 c = 1 ↔ c = 3)) ∧
    (rowOnes 7 (buildConeMask mask) 6 = 7 ∧
      ∀ c : Int, 0 ≤ c ∧ c ≤ 6 → buildConeMask mask 6 c = 1) ∧
    (List.range 7).map (rowOnes 7 (buildConeMask mask)) = [1, 3, 5, 7, 7, 7, 7] ∧
    countOnes 7 7 (buildConeMask mask) = 37 := by
  have hrows : (List.range 7).map (rowOnes 7 (buildConeMask mask)) = [1, 3, 5, 7, 7, 7, 7] := by
    rw [rowOnes_mask (buildConeMask mask) coneShape (buildConeMask_eq_shape mask)]
    exact rowOnes_coneShape
  have hlist : List.range 7 = [0, 1, 2, 3, 4, 5, 6] := by decide
  rw [hlist] at hrows
  simp only [List.map_cons, List.map_nil, List.cons.injEq, and_true] at hrows
  refine ⟨⟨hrows.1, ?_⟩, ⟨hrows.2.2.2.2.2.2, ?_⟩, ?_, ?_⟩
  · intro c hc
    rw [buildConeMask_apply, if_pos ⟨by decide, hc.1, by omega⟩]
    constructor
    · intro h
      split_ifs at h with hq
      · omega
      · exact absurd h (by decide)
    · intro h
      rw [if_pos]
      omega
  · intro c hc
    rw [buildConeMask_apply, if_pos ⟨by decide, hc.1, by omega⟩, if_pos]
    omega
  · rw [hlist]
    simp only [List.map_cons, List.map_nil, List.cons.injEq, and_true]
    exact hrows
  · rw [countOnes_mask (buildConeMask mask) coneShape (buildConeMask_eq_shape mask)]
    exact countOnes_coneShape

/-- C16: output format.  For every board and overlay, the text written by
`printBoardWithOverlay` is ten lines, each made of the ten values of a row written as
decimal numerals, joined by single spaces and followed by a newline, with nothing
between the last value and the newline. -/
theorem printBoardWithOverlay_format (board overlay : Grid) :
    stdoutText (printBoardWithOverlay board overlay)
      = String.join ((List.range 10).map (fun (i : Nat) =>
          String.intercalate " " ((List.range 10).map (fun (j : Nat) =>
            toString (if overlay (i : Int) (j : Int) = 1 then AOE else board (i : Int) (j : Int))))
          ++ "\n")) ∧
    (∀ i j : Nat, isDecimal
      (toString (if overlay (i : Int) (j : Int) = 1 then AOE else board (i : Int) (j : Int)))
        = true) :=
  ⟨stdoutText_print board overlay, fun _ _ => isDecimal_toString _⟩

/-- C19: exact output of the example run.  Whatever its local arrays held at first,
`main` writes the ten lines below and returns `0`; the cells printed as `3` are `(6, 7)`,
`(7, 7)` and `(8, 7)`, and the other five ship cells are printed as `5`. -/
theorem main_output (board overlay cone cross octa : Grid) :
    stdoutText (main board overlay cone cross octa).1
      = "0 5 5 5 5 5 0 0 0 0\n5 5 5 5 5 5 5 0 0 0\n5 5 5 5 5 5 5 0 0 0\n5 5 5 5 5 5 5 0 0 0\n5 5 5 5 5 5 5 0 0 0\n0 5 5 5 5 5 5 5 5 0\n5 5 5 5 5 5 0 3 0 0\n5 5 5 5 5 5 0 3 0 0\n5 5 5 5 5 5 0 3 0 0\n0 5 5 5 0 0 0 0 0 0\n" ∧
    (main board overlay cone cross octa).2 = 0 ∧
    (List.range 10).map (fun (i : Nat) => (List.range 10).map (fun (j : Nat) =>
        displayedValue (main board overlay cone cross octa).1 i j))
      = List.map (List.map some)
        [[0, 5, 5, 5, 5, 5, 0, 0, 0, 0],
         [5, 5, 5, 5, 5, 5, 5, 0, 0, 0],
         [5, 5, 5, 5, 5, 5, 5, 0, 0, 0],
         [5, 5, 5, 5, 5, 5, 5, 0, 0, 0],
         [5, 5, 5, 5, 5, 5, 5, 0, 0, 0],
         [0, 5, 5, 5, 5, 5, 5, 5, 5, 0],
         [5, 5, 5, 5, 5, 5, 0, 3, 0, 0],
         [5, 5, 5, 5, 5, 5, 0, 3, 0, 0],
         [5, 5, 5, 5, 5, 5, 0, 3, 0, 0],
         [0, 5, 5, 5, 0, 0, 0, 0, 0, 0]] ∧
    (List.range 10).flatMap (fun (i : Nat) =>
        ((List.range 10).filter (fun (j : Nat) =>
          decide (displayedValue (main board overlay cone cross octa).1 i j = some 3))).map
          (fun (j : Nat) => (i, j)))
      = [(6, 7), (7, 7), (8, 7)] ∧
    (∀ p ∈ [(2, 1), (2, 2), (2, 3), (5, 7), (8, 2)],
      displayedValue (main board overlay cone cross octa).1 p.1 p.2 = some 5) := by
  rw [main_calls]
  refine ⟨example_text, rfl, example_rows, example_threes, example_fives⟩

/-- C20: the origin cell is always hit, and the apex of the cone sits three rows above
it.  For each of the three built masks and every origin `(r0, c0)` on the board, the
overlay cell `(r0, c0)` is affected after `applyMaskAt`.  The only included cell of row
0 of the cone mask is `(0, 3)`; it maps to the board cell `(r0 - 3, c0)`, which is
affected after the call when `r0 ≥ 3`, and a write at the index `(r0 - 3, c0)` is made
exactly when `r0 ≥ 3`. -/
theorem origin_cell_hit (overlay cone cross octa : Grid) (r0 c0 : Int)
    (hr : 0 ≤ r0 ∧ r0 < 10) (hc : 0 ≤ c0 ∧ c0 < 10) :
    (applyMaskAt overlay r0 c0 (buildConeMask cone) r0 c0 = 1 ∧
      applyMaskAt overlay r0 c0 (buildCrossMask cross) r0 c0 = 1 ∧
      applyMaskAt overlay r0 c0 (buildOctaMask octa) r0 c0 = 1) ∧
    (∀ c : Int, 0 ≤ c ∧ c ≤ 6 → (buildConeMask cone 0 c = 1 ↔ c = 3)) ∧
    (3 ≤ r0 → applyMaskAt overlay r0 c0 (buildConeMask cone) (r0 - 3) c0 = 1) ∧
    ((r0 - 3, c0) ∈ (applyMaskAtLogged overlay r0 c0 (buildConeMask cone)).2 ↔ 3 ≤ r0) := by
  have hR : isInt32 r0 := by
    unfold isInt32
    omega
  have hC : isInt32 c0 := by
    unfold isInt32
    omega
  refine ⟨⟨?_, ?_, ?_⟩, ?_, ?_, ?_⟩
  · rw [applyMaskAt_apply _ r0 c0 _ hR hC, if_pos]
    rw [hit_cone]
    omega
  · rw [applyMaskAt_apply _ r0 c0 _ hR hC, if_pos]
    rw [hit_cross]
    omega
  · rw [applyMaskAt_apply _ r0 c0 _ hR hC, if_pos]
    rw [hit_octa]
    simp only [sub_self, abs_zero]
    omega
  · intro c hc6
    rw [buildConeMask_apply, if_pos ⟨by decide, hc6.1, by omega⟩]
    constructor
    · intro h
      split_ifs at h with hq
      · omega
      · exact absurd h (by decide)
    · intro h
      rw [if_pos]
      omega
  · intro h3
    rw [applyMaskAt_apply _ r0 c0 _ hR hC, if_pos]
    rw [hit_cone]
    omega
  · constructor
    · intro hmem
      have hin := applyMaskAtLogged_log
        (fun w => (0 ≤ w.1 ∧ w.1 < 10) ∧ (0 ≤ w.2 ∧ w.2 < 10))
        overlay r0 c0 (buildConeMask cone)
        (by
          intro r c _ _ _ _ _ hb
          unfold N at hb
          exact ⟨⟨hb.1, hb.2.1⟩, hb.2.2.1, hb.2.2.2⟩)
        (r0 - 3, c0) hmem
      have h0 := hin.1.1
      simp only at h0
      omega
    · intro h3
      rw [applyMaskAtLogged_snd, List.mem_flatMap]
      refine ⟨0, List.mem_range.mpr (by decide), ?_⟩
      rw [List.mem_flatMap]
      refine ⟨3, List.mem_range.mpr (by decide), ?_⟩
      have hm : buildConeMask cone ((0 : Nat) : Int) ((3 : Nat) : Int) = 1 := by
        rw [buildConeMask_apply]
        rfl
      have e1 : addInt r0 (((0 : Nat) : Int) - 3) = r0 - 3 := by
        unfold addInt wrapInt32
        omega
      have e2 : addInt c0 (((3 : Nat) : Int) - 3) = c0 := by
        unfold addInt wrapInt32
        omega
      rw [if_pos hm, e1, e2, if_pos (by omega)]
      exact List.mem_singleton.mpr rfl

/-- Instance of C20: the cone of `main`, stamped at `(1, 3)`, hits its origin. -/
theorem origin_cell_hit_witness :
    (((0 : Int) ≤ 1 ∧ (1 : Int) < 10) ∧ ((0 : Int) ≤ 3 ∧ (3 : Int) < 10)) ∧
    applyMaskAt (fun _ _ => 0) 1 3 (buildConeMask (fun _ _ => 0)) 1 3 = 1 :=
  ⟨by decide,
    (origin_cell_hit (fun _ _ => 0) (fun _ _ => 0) (fun _ _ => 0) (fun _ _ => 0) 1 3
      (by decide) (by decide)).1.1⟩

end BatalhaNaval
